import Mathlib

/-!
# LFG handler: role inference, compatibility checks, matching and listing

A shallow embedding of `src/game/LFG/LFGHandler.cpp`.  Pointers become `Option`,
`uint32` counters are natural numbers reduced modulo `2 ^ 32`, the `int32` totals of
`GetTalentTrees` are integers wrapped to 32 bits, and the loops over the talent store,
the group reference chain and the player registry are folds or structural recursions
over lists in iteration order.  A packet payload is the list of its bytes.
-/

namespace LFG

/-! ## Data model -/

/-- `enum ClassRoles`: the role bits. -/
def LFG_ROLE_NONE : Nat := 0x00

/-- Tank bit of `ClassRoles`. -/
def LFG_ROLE_TANK : Nat := 0x01

/-- Healer bit of `ClassRoles`. -/
def LFG_ROLE_HEALER : Nat := 0x02

/-- Damage-dealer bit of `ClassRoles`. -/
def LFG_ROLE_DPS : Nat := 0x04

/-- The C test `(role & bit)` used as a condition. -/
def hasRole (role bit : Nat) : Bool := (role &&& bit) != 0

/-- Modelled from the spec: the character class enumeration is declared outside
`LFGHandler.cpp`.  The spec names Priest, Shaman, Warrior, Paladin, Druid and Mage;
the remaining classes all take the `default` branch of every `switch`. -/
inductive Classes where
  | CLASS_WARRIOR
  | CLASS_PALADIN
  | CLASS_HUNTER
  | CLASS_ROGUE
  | CLASS_PRIEST
  | CLASS_SHAMAN
  | CLASS_MAGE
  | CLASS_WARLOCK
  | CLASS_DRUID
  deriving DecidableEq, Repr

/-- One row of the talent table: the tab it belongs to and the spell of each rank
(`RankID[MAX_TALENT_RANK]`, 0 where a rank does not exist).  `MAX_TALENT_RANK` is
the length of the list. -/
structure TalentEntry where
  TalentTab : Nat
  RankID : List Nat
  deriving Repr

/-- One row of the talent-tab table. -/
structure TalentTabEntry where
  ClassMask : Nat
  tabpage : Nat
  deriving Repr

/-- The two static tables read by `GetTalentTrees`.  Position `i` of a list is
`LookupEntry(i)`, `none` is a null row, and the list length is `GetNumRows()`. -/
structure DBCStores where
  sTalentStore : List (Option TalentEntry)
  sTalentTabStore : List (Option TalentTabEntry)

/-- `sTalentTabStore.LookupEntry(id)`. -/
def DBCStores.LookupTalentTab (S : DBCStores) (id : Nat) : Option TalentTabEntry :=
  (S.sTalentTabStore.getD id none)

/-- An advertised (entry, type) pair. -/
structure LookingForGroupSlot where
  entry : Nat := 0
  type : Nat := 0
  deriving DecidableEq, Repr

/-- The LFG state of a character: its slots, its "more" slot and its comment. -/
structure LookingForGroup where
  slots : List LookingForGroupSlot := []
  more : LookingForGroupSlot := {}
  comment : String := ""
  deriving Repr

/-- The part of `Player` and of its `WorldSession` that the handler reads or
writes.  `group` is `GetGroup()`: the position of the group in the group store. -/
structure Player where
  guid : Nat := 0
  cls : Classes := Classes.CLASS_WARRIOR
  classMask : Nat := 0
  level : Nat := 1
  freeTalentPoints : Nat := 0
  spells : List Nat := []
  team : Nat := 0
  inWorld : Bool := true
  offline : Bool := false
  security : Nat := 0
  LookingForGroup_auto_join : Bool := false
  LookingForGroup_auto_add : Bool := false
  m_lookingForGroup : LookingForGroup := {}
  inLFGChannel : Bool := true
  group : Option Nat := none
  zoneId : Nat := 0
  deriving Repr

/-- `Player::HasSpell`. -/
def Player.HasSpell (p : Player) (spellid : Nat) : Bool := p.spells.contains spellid

/-! ## TalentRoleClassifier -/

/-- Two's complement reduction of an integer to the `int32` range. -/
def wrapInt32 (x : Int) : Int := (x + 2147483648) % 4294967296 - 2147483648

/-- The inner loop of `GetTalentTrees`: `rank` runs from `MAX_TALENT_RANK - 1` down
to 0 and every learned rank overwrites `maxRank` (there is no `break`). -/
def talentMaxRank (talentInfo : TalentEntry) (_player : Player) : Int :=
  (List.range talentInfo.RankID.length).reverse.foldl
    (fun maxRank rank =>
      let spellid := talentInfo.RankID.getD rank 0
      if spellid = 0 then maxRank
      else if _player.HasSpell spellid then (rank : Int) + 1
      else maxRank)
    0

/-- One iteration of the outer loop of `GetTalentTrees`. -/
def talentTreesStep (S : DBCStores) (_player : Player) (tabs : Nat → Int)
    (row : Option TalentEntry) : Nat → Int :=
  match row with
  | none => tabs
  | some talentInfo =>
    match S.LookupTalentTab talentInfo.TalentTab with
    | none => tabs
    | some talentTabInfo =>
      if _player.classMask &&& talentTabInfo.ClassMask = 0 then tabs
      else fun t =>
        if t = talentTabInfo.tabpage then
          wrapInt32 (tabs talentTabInfo.tabpage + talentMaxRank talentInfo _player)
        else tabs t

/-- `GetTalentTrees`: the map from tab page to invested points (`std::map`, absent
keys read as 0). -/
def GetTalentTrees (S : DBCStores) (_player : Player) : Nat → Int :=
  S.sTalentStore.foldl (talentTreesStep S _player) (fun _ => 0)

/-- The loop of `GetHighestTalentTree` on the pair `(tab, max)`. -/
def highestTabLoop (tabs : Nat → Int) : Int × Int :=
  (List.range 3).foldl
    (fun (acc : Int × Int) i =>
      if acc.1 = -1 ∨ acc.2 < tabs i then ((i : Int), tabs i) else acc)
    (-1, 0)

/-- The `else` branch of `GetHighestTalentTree`: the tree assumed for a class. -/
def defaultTab (c : Classes) : Int :=
  match c with
  | Classes.CLASS_MAGE => 1
  | Classes.CLASS_PALADIN => 2
  | Classes.CLASS_PRIEST => 1
  | _ => 0

/-- `GetHighestTalentTree`. -/
def GetHighestTalentTree (S : DBCStores) (_player : Player) : Int :=
  if _player.level ≥ 10 ∧ _player.freeTalentPoints = 0 then
    (highestTabLoop (GetTalentTrees S _player)).1
  else
    defaultTab _player.cls

/-- The `switch` of `CalculateTalentRoles` on the class, for a given `tab`. -/
def roleOfTab (c : Classes) (tab : Int) : Nat :=
  match c with
  | Classes.CLASS_PRIEST => if tab = 2 then LFG_ROLE_DPS else LFG_ROLE_HEALER
  | Classes.CLASS_SHAMAN => if tab = 2 then LFG_ROLE_HEALER else LFG_ROLE_DPS
  | Classes.CLASS_WARRIOR => if tab = 2 then LFG_ROLE_TANK else LFG_ROLE_DPS
  | Classes.CLASS_PALADIN =>
    if tab = 0 then LFG_ROLE_HEALER
    else if tab = 1 then LFG_ROLE_TANK
    else if tab = 2 then LFG_ROLE_DPS
    else LFG_ROLE_NONE
  | Classes.CLASS_DRUID =>
    if tab = 0 then LFG_ROLE_DPS
    else if tab = 1 then LFG_ROLE_TANK ||| LFG_ROLE_DPS
    else if tab = 2 then LFG_ROLE_HEALER
    else LFG_ROLE_NONE
  | _ => LFG_ROLE_DPS

/-- `CalculateTalentRoles`. -/
def CalculateTalentRoles (S : DBCStores) (_player : Player) : Nat :=
  roleOfTab _player.cls (GetHighestTalentTree S _player)

/-! ## CompatibilityEvaluator -/

/-- `IsCompatibleWithPlayer`. -/
def IsCompatibleWithPlayer (S : DBCStores) (newPlayer oldPlayer : Player) : Bool :=
  let newRole := CalculateTalentRoles S newPlayer
  let oldRole := CalculateTalentRoles S oldPlayer
  if hasRole newRole LFG_ROLE_TANK && hasRole oldRole LFG_ROLE_TANK then false
  else if hasRole newRole LFG_ROLE_HEALER && hasRole oldRole LFG_ROLE_HEALER then false
  else if hasRole newRole LFG_ROLE_DPS && hasRole oldRole LFG_ROLE_DPS
      && decide (newPlayer.cls = oldPlayer.cls) then false
  else true

/-- The `uint32` counters of `IsCompatibleWithGroup`. -/
structure Counters where
  dps : Nat := 0
  heal : Nat := 0
  tank : Nat := 0
  offtank : Nat := 0
  offdps : Nat := 0
  sameDpsClass : Nat := 0
  deriving DecidableEq, Repr

/-- `x++` on a `uint32`. -/
def inc32 (x : Nat) : Nat := (x + 1) % 4294967296

/-- `x--` on a `uint32`: 0 wraps to `2 ^ 32 - 1`. -/
def dec32 (x : Nat) : Nat := (x + 4294967295) % 4294967296

/-- `x += y` on `uint32` values. -/
def add32 (x y : Nat) : Nat := (x + y) % 4294967296

/-- The counter updates for one member with role `mRole`; `sameCls` is
`member->getClass() == myClass`. -/
def countRole (mRole : Nat) (sameCls : Bool) (c : Counters) : Counters :=
  let c1 :=
    if hasRole mRole LFG_ROLE_DPS then
      let c0 :=
        if hasRole mRole LFG_ROLE_TANK && (c.tank != 0 || decide (c.dps < 3)) then
          { c with offdps := inc32 c.offdps }
        else
          { c with dps := inc32 c.dps }
      if sameCls then { c0 with sameDpsClass := inc32 c0.sameDpsClass } else c0
    else c
  let c2 := if hasRole mRole LFG_ROLE_HEALER then { c1 with heal := inc32 c1.heal } else c1
  if hasRole mRole LFG_ROLE_TANK then
    if hasRole mRole LFG_ROLE_DPS && (c2.tank == 0 || decide (c2.dps ≥ 3)) then
      { c2 with offtank := inc32 c2.offtank }
    else
      { c2 with tank := inc32 c2.tank }
  else c2

/-- The body of the loop over the group references; a null `getSource()` is skipped. -/
def memberStep (S : DBCStores) (myClass : Classes) (c : Counters) (ref : Option Player) :
    Counters :=
  match ref with
  | none => c
  | some member =>
    countRole (CalculateTalentRoles S member) (decide (member.cls = myClass)) c

/-- The counters when the loop over the members has ended. -/
def passCounters (S : DBCStores) (myClass : Classes) (refs : List (Option Player)) :
    Counters :=
  refs.foldl (memberStep S myClass) {}

/-- "if no tank count feral druid as tank": the first `if` after the loop. -/
def promoteStep (c : Counters) : Counters :=
  if c.tank == 0 && c.offtank != 0 then
    { c with tank := inc32 c.tank, offtank := dec32 c.offtank, offdps := dec32 c.offdps }
  else c

/-- "if more hybrids in group count as dps": the second `if` after the loop. -/
def foldStep (c : Counters) : Counters :=
  if decide (c.dps < 3) && c.offdps != 0 && c.offtank != 0 then
    { c with dps := add32 c.dps c.offdps }
  else c

/-- The three final tests of `IsCompatibleWithGroup` on the counters. -/
def verdict (newRole : Nat) (c : Counters) : Bool :=
  if (decide (c.dps ≥ 3) || c.sameDpsClass != 0) && hasRole newRole LFG_ROLE_DPS
      && !hasRole newRole LFG_ROLE_TANK then false
  else if decide (c.heal ≥ 1) && hasRole newRole LFG_ROLE_HEALER then false
  else if decide (c.tank ≥ 1) && hasRole newRole LFG_ROLE_TANK
      && !hasRole newRole LFG_ROLE_DPS then false
  else true

/-- `IsCompatibleWithGroup`.  `group` is the `Group*` argument, given by its chain
of member references `GetFirstMember()`, `next()`, ... with the `getSource()` of
each.  The locals `strictCheck` and `notCompatible` and the parameter `sameClass`
are never read and are left out. -/
def IsCompatibleWithGroup (S : DBCStores) (newPlayer : Player)
    (group : Option (List (Option Player))) : Bool :=
  let newRole := CalculateTalentRoles S newPlayer
  match group with
  | some refs =>
    let myClass := newPlayer.cls
    verdict newRole (foldStep (promoteStep (passCounters S myClass refs)))
  | none => true

/-! ### The procedure of the specification, on unbounded integers -/

/-- Counters of the reference procedure. -/
structure SpecCounters where
  dps : Int := 0
  heal : Int := 0
  tank : Int := 0
  offtank : Int := 0
  offdps : Int := 0
  sameDpsClass : Int := 0
  deriving DecidableEq, Repr

/-- The per-member rules as the specification words them, for a member with
capability set `m`. -/
def specCountMember (m : Nat) (sameCls : Bool) (c : SpecCounters) : SpecCounters :=
  -- "If m has DPS: if m also has Tank and (tank>0 or dps<3), count as offdps; else
  -- count as dps.  If member's class equals candidate's class, increment sameDpsClass."
  let c1 :=
    if hasRole m LFG_ROLE_DPS then
      let c0 :=
        if hasRole m LFG_ROLE_TANK ∧ (c.tank > 0 ∨ c.dps < 3) then
          { c with offdps := c.offdps + 1 }
        else { c with dps := c.dps + 1 }
      if sameCls then { c0 with sameDpsClass := c0.sameDpsClass + 1 } else c0
    else c
  -- "If m has Healer: increment heal."
  let c2 := if hasRole m LFG_ROLE_HEALER then { c1 with heal := c1.heal + 1 } else c1
  -- "If m has Tank: if m also has DPS and (tank==0 or dps>=3), count as offtank;
  -- else count as tank."
  if hasRole m LFG_ROLE_TANK then
    if hasRole m LFG_ROLE_DPS ∧ (c2.tank = 0 ∨ c2.dps ≥ 3) then
      { c2 with offtank := c2.offtank + 1 }
    else { c2 with tank := c2.tank + 1 }
  else c2

/-- "One pass over current group members accumulating counts". -/
def specPass (S : DBCStores) (candidate : Player) (members : List Player) : SpecCounters :=
  members.foldl
    (fun c m => specCountMember (CalculateTalentRoles S m) (decide (m.cls = candidate.cls)) c)
    {}

/-- "if tank==0 and offtank>0, promote one offtank to tank (tank++, offtank--, offdps--)". -/
def specPromote (c : SpecCounters) : SpecCounters :=
  if c.tank = 0 ∧ c.offtank > 0 then
    { c with tank := c.tank + 1, offtank := c.offtank - 1, offdps := c.offdps - 1 }
  else c

/-- "Then if dps<3 and both offdps>0 and offtank>0, fold all offdps into dps". -/
def specFold (c : SpecCounters) : SpecCounters :=
  if c.dps < 3 ∧ c.offdps > 0 ∧ c.offtank > 0 then { c with dps := c.dps + c.offdps } else c

/-- "Finally reject the candidate if any of ..."; `true` is a rejection. -/
def specReject (role : Nat) (c : SpecCounters) : Bool :=
  decide ((hasRole role LFG_ROLE_DPS ∧ ¬ hasRole role LFG_ROLE_TANK ∧
        (c.dps ≥ 3 ∨ c.sameDpsClass > 0))
    ∨ (hasRole role LFG_ROLE_HEALER ∧ c.heal ≥ 1)
    ∨ (hasRole role LFG_ROLE_TANK ∧ ¬ hasRole role LFG_ROLE_DPS ∧ c.tank ≥ 1))

/-- The reference procedure of the specification for a non-null group with the given
members (the non-null references, in order). -/
def specIsCompatibleWithGroup (S : DBCStores) (candidate : Player) (members : List Player) :
    Bool :=
  !specReject (CalculateTalentRoles S candidate)
    (specFold (specPromote (specPass S candidate members)))

/-! ## MatchEngine: the shared state -/

/-- Modelled from the spec: `LookingForGroup::HaveInSlot` is declared outside
`LFGHandler.cpp`; a character has (entry, type) in a slot when one of its slots holds
exactly that pair. -/
def LookingForGroup.HaveInSlot (l : LookingForGroup) (slot : LookingForGroupSlot) : Bool :=
  l.slots.any (fun s => s.entry == slot.entry && s.type == slot.type)

/-- Modelled from the spec: the `Group` class is declared outside `LFGHandler.cpp`.
A group has a designated leader, an ordered membership list (the members are given by
their position in the player registry), a battleground flag and a fixed capacity. -/
structure Group where
  leaderGuid : Nat := 0
  members : List Nat := []
  isBattleGroup : Bool := false
  maxSize : Nat := 5
  deriving Repr, Inhabited

/-- Modelled from the spec: `Group::IsFull`, the membership count has reached the
capacity. -/
def Group.IsFull (g : Group) : Bool := decide (g.members.length ≥ g.maxSize)

/-- Constants and helpers that `LFGHandler.cpp` uses and does not declare. -/
structure Env where
  S : DBCStores
  canAutoJoin : LookingForGroupSlot → Bool
  CONFIG_BOOL_CHANNEL_RESTRICTED_LFG : Bool := false
  SEC_PLAYER : Nat := 0
  MAXGROUPSIZE : Nat := 5

/-- The mutable state a matching attempt runs on: the player registry in iteration
order (`none` is a null entry), the group store, and the results that the next calls
of `Group::Create` and `Group::AddMember` will give (an exhausted list means success). -/
structure World where
  players : List (Option Player) := []
  groups : List Group := []
  createOutcomes : List Bool := []
  addOutcomes : List Bool := []
  deriving Repr

/-- The player at a registry position. -/
def World.player (w : World) (i : Nat) : Option Player := w.players.getD i none

/-- Rewrite the player at a registry position. -/
def World.updatePlayer (w : World) (i : Nat) (f : Player → Player) : World :=
  { w with players := w.players.modify (Option.map f) i }

/-- The reference chain of the group at position `gi` of the store: the `getSource()`
of each member. -/
def World.memberRefs (w : World) (gi : Nat) : List (Option Player) :=
  ((w.groups.getD gi default).members).map w.player

/-- Modelled from the spec: `Group::Create(leaderGuid, leaderName)` followed by
`sObjectMgr.AddGroup`, "create group(leaderId, leaderName) -> Group|failure".  The
next outcome of the store decides success.  A created group holds its leader as only
member and is appended to the store; the leader's group reference is set to it when
the leader has none.  The result pairs the new state with the success flag. -/
def World.CreateGroup (E : Env) (w : World) (leader : Nat) : World × Bool :=
  let ok := w.createOutcomes.headD true
  let w0 : World := { w with createOutcomes := w.createOutcomes.tail }
  match w0.player leader with
  | none => (w0, false)
  | some p =>
    if ok then
      let gi := w0.groups.length
      let g : Group := { leaderGuid := p.guid, members := [leader], maxSize := E.MAXGROUPSIZE }
      let w1 : World := { w0 with groups := w0.groups ++ [g] }
      (w1.updatePlayer leader
        (fun (q : Player) => if q.group.isNone then { q with group := some gi } else q), true)
    else (w0, false)

/-- Modelled from the spec: `Group::AddMember(guid, name)`, "add member(group, id,
name) -> bool".  The call fails on a full group or when the next outcome of the store
says so; on success the member is appended to the membership list and its group
reference is set. -/
def World.AddMember (w : World) (gi : Nat) (member : Nat) : World × Bool :=
  let ok := w.addOutcomes.headD true
  let w0 : World := { w with addOutcomes := w.addOutcomes.tail }
  let g := w0.groups.getD gi default
  if ok && !g.IsFull && decide (gi < w0.groups.length) then
    let w1 : World :=
      { w0 with groups := w0.groups.set gi { g with members := g.members ++ [member] } }
    (w1.updatePlayer member (fun (q : Player) => { q with group := some gi }), true)
  else (w0, false)

/-- The statement `if (sWorld.getConfig(CONFIG_BOOL_CHANNEL_RESTRICTED_LFG) &&
p->GetSession()->GetSecurity() == SEC_PLAYER) p->LeaveLFGChannel();`. -/
def World.restrictedLeave (E : Env) (w : World) (i : Nat) : World :=
  w.updatePlayer i (fun (p : Player) =>
    if E.CONFIG_BOOL_CHANNEL_RESTRICTED_LFG && p.security == E.SEC_PLAYER then
      { p with inLFGChannel := false }
    else p)

/-- The test `g->isBattleGroup() || g->IsFull() || g->GetLeaderGuid() != guid`. -/
def Group.notJoinable (g : Group) (guid : Nat) : Bool :=
  g.isBattleGroup || g.IsFull || g.leaderGuid != guid

/-! ## MatchEngine: `AttemptAddMore` -/

/-- The loop of `AttemptAddMore` over the registry positions still to visit.  `me` is
the position of `_player` and `_group` the local variable of that name, assigned once
before the loop.  `continue` is the recursive call, `break` and `return` give back
the state. -/
def addMoreLoop (E : Env) (me : Nat) (_group : Option Nat) : List Nat → World → World
  | [], w => w
  | i :: rest, w =>
    match w.player i, w.player me with
    | some plr, some _player =>
      -- skip enemies and self
      if i == me || plr.team != _player.team then addMoreLoop E me _group rest w
      -- skip players not in world or reconnecting
      else if !plr.inWorld || plr.offline then addMoreLoop E me _group rest w
      -- skip non auto-join or empty slots, or non compatible slots
      else if !plr.LookingForGroup_auto_join
          || !plr.m_lookingForGroup.HaveInSlot _player.m_lookingForGroup.more then
        addMoreLoop E me _group rest w
      -- skip players in groups
      else if plr.group.isSome then addMoreLoop E me _group rest w
      -- check roles based on talents
      else if !(match _group with
          | some gi => IsCompatibleWithGroup E.S plr (some (w.memberRefs gi))
          | none => IsCompatibleWithPlayer E.S plr _player) then
        addMoreLoop E me _group rest w
      else
        -- attempt create group if needed, or stop attempts
        let created := if _group.isNone then w.CreateGroup E me else (w, true)
        if !created.2 then created.1
        else
          let w1 := created.1
          -- `_player->GetGroup()`, read again here; it is set once a creation succeeded
          match (w1.player me).bind (fun q => q.group) with
          | none => w1
          | some gi =>
            let added := w1.AddMember gi i
            -- stop at join fail (full)
            if !added.2 then added.1.restrictedLeave E me
            else
              -- joined
              let w2 := added.1.restrictedLeave E i
              -- and group full
              if (w2.groups.getD gi default).IsFull then w2.restrictedLeave E me
              else addMoreLoop E me _group rest w2
    | _, _ => addMoreLoop E me _group rest w

/-- `AttemptAddMore(_player)` for the player at registry position `me`. -/
def AttemptAddMore (E : Env) (me : Nat) (w : World) : World :=
  match w.player me with
  | none => w
  | some _player =>
    -- skip non auto-join slot
    if !E.canAutoJoin _player.m_lookingForGroup.more then w
    else
      let _group := _player.group
      -- skip player in a battleground, not group leader, group is full cases
      if (match _group with
          | some gi => (w.groups.getD gi default).notJoinable _player.guid
          | none => false) then w
      else addMoreLoop E me _group (List.range w.players.length) w

/-! ## MatchEngine: `AttemptJoin` -/

/-- Modelled from the spec: `LookingForGroup::canAutoJoin` is declared outside
`LFGHandler.cpp`; the advertised slots of a character are auto-joinable when one of
them is. -/
def LookingForGroup.canAutoJoin (E : Env) (l : LookingForGroup) : Bool :=
  l.slots.any E.canAutoJoin

/-- The loop of `AttemptJoin` over the registry positions still to visit; `me` is the
position of `_player`.  `continue` is the recursive call and `break` gives back the
state. -/
def joinLoop (E : Env) (me : Nat) : List Nat → World → World
  | [], w => w
  | i :: rest, w =>
    match w.player i, w.player me with
    | some plr, some _player =>
      -- skip enemies and self
      if i == me || plr.team != _player.team then joinLoop E me rest w
      -- skip players not in world or reconnecting
      else if !plr.inWorld || plr.offline then joinLoop E me rest w
      -- skip not auto add
      else if !plr.LookingForGroup_auto_add then joinLoop E me rest w
      -- skip non auto-join or empty slots, or non compatible slots
      else if !E.canAutoJoin plr.m_lookingForGroup.more
          || !_player.m_lookingForGroup.HaveInSlot plr.m_lookingForGroup.more then
        joinLoop E me rest w
      else
        let grp := plr.group
        -- skip player in a battleground, not group leader, group is full cases
        if (match grp with
            | some gi => (w.groups.getD gi default).notJoinable plr.guid
            | none => false) then joinLoop E me rest w
        -- check roles based on talents
        else if !(match grp with
            | some gi => IsCompatibleWithGroup E.S _player (some (w.memberRefs gi))
            | none => IsCompatibleWithPlayer E.S _player plr) then
          joinLoop E me rest w
        else
          -- attempt create group, or skip
          let created := if grp.isNone then w.CreateGroup E i else (w, true)
          if !created.2 then joinLoop E me rest created.1
          else
            let w1 := created.1
            -- `plr->GetGroup()`, read again here
            match (w1.player i).bind (fun q => q.group) with
            | none => w1
            | some gi =>
              let added := w1.AddMember gi me
              -- stop at success join
              if added.2 then added.1.restrictedLeave E me
              -- full
              else joinLoop E me rest (added.1.restrictedLeave E i)
    | _, _ => joinLoop E me rest w

/-- `AttemptJoin(_player)` for the player at registry position `me`. -/
def AttemptJoin (E : Env) (me : Nat) (w : World) : World :=
  match w.player me with
  | none => w
  | some _player =>
    -- skip not can autojoin cases and player group case
    if !_player.m_lookingForGroup.canAutoJoin E || _player.group.isSome then w
    else joinLoop E me (List.range w.players.length) w

/-! ## ListingProtocol -/

/-- Constants and helpers of the packet code that `LFGHandler.cpp` uses and does not
declare: the number of LFG slots of a character and the packed form of a guid. -/
structure PacketEnv where
  MAX_LOOKING_FOR_GROUP_SLOT : Nat := 3
  packGuid : Nat → List Nat

/-- `data << uint32(v)`: the four bytes of `v` modulo `2 ^ 32`, low byte first. -/
def u32le (v : Nat) : List Nat :=
  [v % 256, v / 256 % 256, v / 65536 % 256, v / 16777216 % 256]

/-- `data.put<uint32>(pos, v)`: overwrite four bytes at `pos`. -/
def putU32 (data : List Nat) (pos v : Nat) : List Nat :=
  data.take pos ++ u32le v ++ data.drop (pos + 4)

/-- The `uint32` stored at byte offset `pos`, low byte first. -/
def readU32 (data : List Nat) (pos : Nat) : Nat :=
  match data.drop pos with
  | b0 :: b1 :: b2 :: b3 :: _ => b0 + 256 * b1 + 65536 * b2 + 16777216 * b3
  | _ => 0

/-- `data << std::string`: the bytes of the string and a terminating zero. -/
def stringBytes (s : String) : List Nat :=
  s.toUTF8.toList.map UInt8.toNat ++ [0]

/-- Modelled from the spec: `LookingForGroupSlot::Is` is declared outside
`LFGHandler.cpp`; the slot holds exactly the pair (entry, type). -/
def LookingForGroupSlot.Is (s : LookingForGroupSlot) (entry type : Nat) : Bool :=
  s.entry == entry && s.type == type

/-- The word `uint32(slot.entry | (slot.type << 24))` before its reduction to 32 bits,
which `u32le` performs. -/
def slotWord (s : LookingForGroupSlot) : Nat := s.entry ||| (s.type <<< 24)

/-- The loop over the group references in `SendLFGListQueryResponse`, on the pair
`(data, count)`. -/
def listMembersLoop (P : PacketEnv) (plrGuid : Nat) (refs : List (Option Player))
    (st : List Nat × Nat) : List Nat × Nat :=
  refs.foldl
    (fun st ref =>
      match ref with
      | some member =>
        if member.guid != plrGuid then
          (st.1 ++ P.packGuid member.guid ++ u32le member.level, inc32 st.2)
        else st
      | none => st)
    st

/-- What one displayed player appends to `data`: from `data << plr->GetPackGUID()` to
the end of the loop body. -/
def appendRecord (P : PacketEnv) (w : World) (entry type : Nat) (data : List Nat)
    (plr : Player) : List Nat :=
  let lfm := plr.m_lookingForGroup.more.Is entry type
  let d1 := data ++ P.packGuid plr.guid ++ u32le plr.level ++ u32le plr.zoneId
    ++ [if lfm then 1 else 0]
  let d2 :=
    if lfm then
      d1 ++ u32le (slotWord plr.m_lookingForGroup.more) ++ u32le 0x1000000 ++ u32le 0x1000000
    else
      (List.range P.MAX_LOOKING_FOR_GROUP_SLOT).foldl
        (fun d j => d ++ u32le (slotWord (plr.m_lookingForGroup.slots.getD j ({ } : LookingForGroupSlot)))) d1
  let d3 := d2 ++ stringBytes plr.m_lookingForGroup.comment
  -- other group members count, placeholder
  let d4 := d3 ++ u32le 0
  match plr.group with
  | some gi =>
    let offset := d4.length - 4
    let r := listMembersLoop P plr.guid (w.memberRefs gi) (d4, 0)
    putU32 r.1 offset r.2
  | none => d4

/-- The body of the loop over the registry in `SendLFGListQueryResponse`, on the
triple `(data, displayed, found)`. -/
def listQueryStep (P : PacketEnv) (w : World) (_player : Player) (entry type : Nat)
    (st : List Nat × Nat × Nat) (slot : Option Player) : List Nat × Nat × Nat :=
  match slot with
  | none => st
  | some plr =>
    if plr.team != _player.team then st
    else if !plr.inWorld || plr.offline then st
    else if !plr.m_lookingForGroup.HaveInSlot { entry := entry, type := type }
        && !plr.m_lookingForGroup.more.Is entry type then st
    else if (match plr.group with
        | some gi =>
          (w.groups.getD gi default).isBattleGroup || (w.groups.getD gi default).IsFull
            || !((w.groups.getD gi default).leaderGuid == plr.guid)
        | none => false) then st
    else
      let found := inc32 st.2.2
      -- Client hardcoded limitation
      if found > 50 then (st.1, st.2.1, found)
      else (appendRecord P w entry type st.1 plr, inc32 st.2.1, found)

/-- `WorldSession::SendLFGListQueryResponse(type, entry)` for the session of the player
at registry position `me`: the payload of the packet that is sent. -/
def SendLFGListQueryResponse (P : PacketEnv) (w : World) (me : Nat) (type entry : Nat) :
    Option (List Nat) :=
  match w.player me with
  | none => none
  | some _player =>
    let data := u32le type ++ u32le entry ++ u32le 0 ++ u32le 0
    let r := w.players.foldl (listQueryStep P w _player entry type) (data, 0, 0)
    -- fill count placeholders
    some (putU32 (putU32 r.1 (4 + 4) r.2.1) (4 + 4 + 4) r.2.2)

/-! ## The set-slot handler -/

/-- `slots[slot].Set(entry, type)` on the array of `MAX_LOOKING_FOR_GROUP_SLOT` slots;
positions the list does not hold are empty slots. -/
def setSlot (P : PacketEnv) (slots : List LookingForGroupSlot) (slot entry type : Nat) :
    List LookingForGroupSlot :=
  (slots ++ List.replicate (P.MAX_LOOKING_FOR_GROUP_SLOT - slots.length) ({ } : LookingForGroupSlot)).set slot
    { entry := entry, type := type }

/-- `WorldSession::HandleSetLfgOpcode` for the session of the player at registry
position `me`, on the two words `slot` and `temp` read from the packet.  The result is
the new state and the payloads sent. -/
def HandleSetLfgOpcode (E : Env) (P : PacketEnv) (me : Nat) (slot temp : Nat) (w : World) :
    World × List (List Nat) :=
  let entry := temp &&& 0xFFFF
  let type := (temp >>> 24) &&& 0xFFFF
  if slot ≥ P.MAX_LOOKING_FOR_GROUP_SLOT then (w, [])
  else
    let w1 := w.updatePlayer me (fun (p : Player) =>
      { p with m_lookingForGroup :=
          { p.m_lookingForGroup with
            slots := setSlot P p.m_lookingForGroup.slots slot entry type } })
    let w2 :=
      match w1.player me with
      | some p => if p.LookingForGroup_auto_join then AttemptJoin E me w1 else w1
      | none => w1
    (w2, (SendLFGListQueryResponse P w2 me type entry).toList)

/-! ## The "more" handler and the update messages -/

/-- Modelled from the spec: `LookingForGroupSlot::Empty` is declared outside
`LFGHandler.cpp`; a slot is empty when entry and type are both zero. -/
def LookingForGroupSlot.Empty (s : LookingForGroupSlot) : Bool :=
  s.entry == 0 && s.type == 0

/-- `WorldSession::HandleSetLfmOpcode` for the session of the player at registry
position `me`, on the word `temp` read from the packet.  The result is the new state
and the payloads sent. -/
def HandleSetLfmOpcode (E : Env) (P : PacketEnv) (me : Nat) (temp : Nat) (w : World) :
    World × List (List Nat) :=
  let entry := temp &&& 0xFFFF
  let type := (temp >>> 24) &&& 0xFFFF
  let w1 := w.updatePlayer me (fun (p : Player) =>
    { p with m_lookingForGroup :=
        { p.m_lookingForGroup with more := { entry := entry, type := type } } })
  let w2 :=
    match w1.player me with
    | some p => if p.LookingForGroup_auto_add then AttemptAddMore E me w1 else w1
    | none => w1
  (w2, (SendLFGListQueryResponse P w2 me type entry).toList)

/-- `WorldSession::SendLFGUpdateLFG`: the payload, one word per slot. -/
def SendLFGUpdateLFG (P : PacketEnv) (_player : Player) : List Nat :=
  (List.range P.MAX_LOOKING_FOR_GROUP_SLOT).foldl
    (fun data i =>
      data ++ u32le (slotWord (_player.m_lookingForGroup.slots.getD i ({ } : LookingForGroupSlot))))
    []

/-- `WorldSession::SendLFGUpdateLFM`: the payload. -/
def SendLFGUpdateLFM (_player : Player) : List Nat :=
  if _player.m_lookingForGroup.more.Empty then [0]
  else [1] ++ u32le (slotWord _player.m_lookingForGroup.more)

/-! ## Concrete data used by the examples -/

/-- A talent table with one Druid talent of three ranks on tab page 1 (spells 101 to
103) and one Warrior talent of five ranks on tab page 2 (spells 201 to 205). -/
def exStores : DBCStores :=
  { sTalentStore :=
      [ some { TalentTab := 1, RankID := [101, 102, 103, 0, 0] },
        none,
        some { TalentTab := 2, RankID := [201, 202, 203, 204, 205] } ],
    sTalentTabStore :=
      [ none,
        some { ClassMask := 1024, tabpage := 1 },
        some { ClassMask := 1, tabpage := 2 } ] }

/-- A level 70 Druid with one point in the tab-page-1 talent: role Tank|DPS. -/
def exFeral : Player :=
  { guid := 11, cls := Classes.CLASS_DRUID, classMask := 1024, level := 70, spells := [101] }

/-- A level 70 Warrior with two points in the tab-page-2 talent: role Tank. -/
def exTank : Player :=
  { guid := 12, cls := Classes.CLASS_WARRIOR, classMask := 1, level := 70, spells := [202] }

/-- A level 5 Priest: role Healer. -/
def exPriest : Player :=
  { guid := 13, cls := Classes.CLASS_PRIEST, classMask := 16, level := 5 }

/-- A second level 5 Priest. -/
def exPriest2 : Player :=
  { guid := 14, cls := Classes.CLASS_PRIEST, classMask := 16, level := 5 }

/-- A level 70 Mage with unspent talent points: role DPS. -/
def exMage : Player :=
  { guid := 15, cls := Classes.CLASS_MAGE, classMask := 128, level := 70, freeTalentPoints := 3 }

/-- A second Mage, level 8. -/
def exMage2 : Player :=
  { guid := 16, cls := Classes.CLASS_MAGE, classMask := 128, level := 8 }

/-- A level 70 Hunter: role DPS. -/
def exHunter : Player :=
  { guid := 17, cls := Classes.CLASS_HUNTER, classMask := 4, level := 70 }

/-- A level 70 Rogue: role DPS. -/
def exRogue : Player :=
  { guid := 18, cls := Classes.CLASS_ROGUE, classMask := 8, level := 70 }

/-- A level 70 Warlock: role DPS. -/
def exWarlock : Player :=
  { guid := 19, cls := Classes.CLASS_WARLOCK, classMask := 256, level := 70 }

/-- A Druid that has learned the rank 1 and the rank 3 spell of the same talent. -/
def exTwoRanks : Player :=
  { guid := 20, cls := Classes.CLASS_DRUID, classMask := 1024, level := 70, spells := [101, 103] }

/-- A level 70 Warrior of role Tank that advertises for more members on (5, 1) with
auto-add on. -/
def exAdvertiser : Player :=
  { exTank with
    guid := 1, LookingForGroup_auto_add := true,
    m_lookingForGroup := { more := { entry := 5, type := 1 } } }

/-- A level 5 Priest that looks for a group on (5, 1) with auto-join on. -/
def exSeeker1 : Player :=
  { exPriest with
    guid := 2, LookingForGroup_auto_join := true,
    m_lookingForGroup := { slots := [{ entry := 5, type := 1 }] } }

/-- A second Priest with the same slot and auto-join on. -/
def exSeeker2 : Player :=
  { exSeeker1 with guid := 3 }

/-- An environment over the example tables; a slot can be auto-joined when its entry is
set and its type is 1 or 5. -/
def exEnv : Env :=
  { S := exStores,
    canAutoJoin := fun s => s.entry != 0 && (s.type == 1 || s.type == 5) }

/-- The registry holds the advertiser and the two seekers; there is no group yet and
every call of the group store succeeds. -/
def exWorld : World :=
  { players := [some exAdvertiser, some exSeeker1, some exSeeker2] }

/-- The Warrior of role Tank as a seeker: slot (5, 1) and auto-join on. -/
def exJoinSeeker : Player :=
  { exTank with
    guid := 21, LookingForGroup_auto_join := true,
    m_lookingForGroup := { slots := [{ entry := 5, type := 1 }] } }

/-- A level 5 Priest that advertises for more members on (5, 1) with auto-add on. -/
def exJoinCand1 : Player :=
  { exPriest with
    guid := 22, LookingForGroup_auto_add := true,
    m_lookingForGroup := { more := { entry := 5, type := 1 } } }

/-- A Mage with the same "more" slot and auto-add on. -/
def exJoinCand2 : Player :=
  { exMage with
    guid := 23, LookingForGroup_auto_add := true,
    m_lookingForGroup := { more := { entry := 5, type := 1 } } }

/-- The registry holds the seeker and the two advertisers; there is no group. -/
def exJoinWorld : World :=
  { players := [some exJoinSeeker, some exJoinCand1, some exJoinCand2] }

/-- The same registry when the first call of `Group::Create` fails. -/
def exJoinWorldCreateFails : World :=
  { exJoinWorld with createOutcomes := [false] }

/-- The registry of `exWorld` when the first call of `Group::Create` fails. -/
def exWorldCreateFails : World :=
  { exWorld with createOutcomes := [false] }

/-- A packet environment with three slots per character and a guid packed as a mask
byte and one byte. -/
def exPacketEnv : PacketEnv :=
  { packGuid := fun g => [1, g % 256] }

/-- A level 5 Priest without group, guid 4, whose three slots are (5, 1) and two empty
slots. -/
def exListedSeeker : Player :=
  { exPriest with
    guid := 4,
    m_lookingForGroup := { slots := [{ entry := 5, type := 1 }, { }, { }] } }

/-- A level 70 Warrior, guid 1, in zone 12, with three empty slots, "more" slot (5, 1)
and comment "hi", in the group at position 0. -/
def exLeader : Player :=
  { exTank with
    guid := 1, zoneId := 12, group := some 0,
    m_lookingForGroup :=
      { slots := [{ }, { }, { }], more := { entry := 5, type := 1 }, comment := "hi" } }

/-- A level 5 Priest, guid 2, with slot (5, 1), in the group at position 0. -/
def exFollower : Player :=
  { exPriest with
    guid := 2, group := some 0,
    m_lookingForGroup := { slots := [{ entry := 5, type := 1 }, { }, { }] } }

/-- A registry of a leader, its follower, a null entry and a seeker without group; the
group at position 0 is led by the leader and has the leader and the follower as
members. -/
def exListWorld : World :=
  { players := [some exLeader, some exFollower, none, some exListedSeeker],
    groups := [{ leaderGuid := 1, members := [0, 1] }] }

/-- A registry of sixty seekers whose three slots are (5, 1) and two empty slots. -/
def exCrowd : World :=
  { players := List.replicate 60 (some exListedSeeker) }

/-! ## Quantities named by the claims -/

/-- The number of non-null references whose member has the DPS bit. -/
def dpsCount (S : DBCStores) (refs : List (Option Player)) : Nat :=
  (refs.filter (fun r =>
    match r with
    | some m => hasRole (CalculateTalentRoles S m) LFG_ROLE_DPS
    | none => false)).length

/-- The highest rank, counted from 1, whose spell the character has learned, and 0
when it has learned none: the quantity the specification sums per tree. -/
def specHighestRank (talentInfo : TalentEntry) (_player : Player) : Int :=
  ((List.range talentInfo.RankID.length).filter
      (fun rank => talentInfo.RankID.getD rank 0 != 0
        && _player.HasSpell (talentInfo.RankID.getD rank 0))).foldl
    (fun best rank => max best ((rank : Int) + 1)) 0

/-- The filters of `AttemptJoin` on a candidate `plr` other than the seeker: same
faction, in world and online, auto-add on, an auto-fillable "more" slot that the seeker
has in a slot. -/
def joinFilter (E : Env) (_player plr : Player) : Bool :=
  plr.team == _player.team && plr.inWorld && !plr.offline && plr.LookingForGroup_auto_add
    && E.canAutoJoin plr.m_lookingForGroup.more
    && _player.m_lookingForGroup.HaveInSlot plr.m_lookingForGroup.more

/-- The filters of `AttemptAddMore` on a candidate `plr` other than the advertiser: same
faction, in world and online, auto-join on, the advertiser's "more" slot in a slot, and
no group. -/
def addMoreFilter (_player plr : Player) : Bool :=
  plr.team == _player.team && plr.inWorld && !plr.offline && plr.LookingForGroup_auto_join
    && plr.m_lookingForGroup.HaveInSlot _player.m_lookingForGroup.more
    && plr.group.isNone

/-- The players a listing query for (entry, type) finds: requester's faction, in world
and not offline, the pair in a slot or as "more" slot, and no group or a group that is
no battleground, not full and led by the player. -/
def listMatch (w : World) (_player : Player) (entry type : Nat) (plr : Player) : Bool :=
  plr.team == _player.team && plr.inWorld && !plr.offline
    && (plr.m_lookingForGroup.HaveInSlot { entry := entry, type := type }
        || plr.m_lookingForGroup.more.Is entry type)
    && (match plr.group with
        | some gi =>
          !(w.groups.getD gi default).isBattleGroup && !(w.groups.getD gi default).IsFull
            && (w.groups.getD gi default).leaderGuid == plr.guid
        | none => true)

/-- The matching players of the registry, in iteration order. -/
def listMatches (w : World) (_player : Player) (entry type : Nat) : List Player :=
  w.players.reduceOption.filter (listMatch w _player entry type)

/-- The members of the group at position `gi` other than `plr`, in the order of the
group's reference list: the non-null references whose member's guid differs from the
guid of `plr`. -/
def otherMembers (w : World) (gi : Nat) (plr : Player) : List Player :=
  (w.memberRefs gi).reduceOption.filter (fun m => m.guid != plr.guid)

/-- The record of one displayed player, field by field: packed guid; level and zone as
32-bit words; the flag byte, 1 when the "more" slot is the queried pair; then for flag 1
the word of the "more" slot and two words `0x1000000`, for flag 0 one word per slot;
the comment with its terminating zero; the count of the other group members as a 32-bit
word (0 for a player without group), followed by the packed guid and the level of each
of them. -/
def listRecord (P : PacketEnv) (w : World) (entry type : Nat) (plr : Player) : List Nat :=
  let lfm : Bool := plr.m_lookingForGroup.more.entry == entry
    && plr.m_lookingForGroup.more.type == type
  P.packGuid plr.guid ++ u32le plr.level ++ u32le plr.zoneId
    ++ [if lfm then 1 else 0]
    ++ (if lfm then
          u32le (plr.m_lookingForGroup.more.entry ||| (plr.m_lookingForGroup.more.type <<< 24))
            ++ u32le 0x1000000 ++ u32le 0x1000000
        else
          (List.range P.MAX_LOOKING_FOR_GROUP_SLOT).flatMap (fun j =>
            u32le ((plr.m_lookingForGroup.slots.getD j ({ } : LookingForGroupSlot)).entry
              ||| ((plr.m_lookingForGroup.slots.getD j ({ } : LookingForGroupSlot)).type <<< 24))))
    ++ stringBytes plr.m_lookingForGroup.comment
    ++ (match plr.group with
        | some gi =>
          u32le (otherMembers w gi plr).length
            ++ (otherMembers w gi plr).flatMap (fun m => P.packGuid m.guid ++ u32le m.level)
        | none => u32le 0)

/-- The slot word of the listing and update messages as a 32-bit word:
`uint32(entry | (type << 24))`. -/
def encodeSlotWord (entry type : Nat) : Nat := (entry ||| (type <<< 24)) % 4294967296

/-- The pair the set-slot handlers read from a word: `(w & 0xFFFF, (w >> 24) & 0xFFFF)`. -/
def decodeSlotWord (w : Nat) : Nat × Nat := (w &&& 0xFFFF, (w >>> 24) &&& 0xFFFF)

/-- Two states give every registry position the same LFG slots, "more" slot and
comment. -/
def SameLfg (w w2 : World) : Prop :=
  ∀ i, (w2.player i).map (fun p => p.m_lookingForGroup)
    = (w.player i).map (fun p => p.m_lookingForGroup)

/-- The relation kept by the loop between the `uint32` counters and the reference
counters after `n` references: equal values, no counter above `n`, and a hybrid
counted as off-tank but not as off-dps was met with three damage dealers counted. -/
def CountersRel (n : Nat) (c : Counters) (s : SpecCounters) : Prop :=
  s.dps = (c.dps : Int) ∧ s.heal = (c.heal : Int) ∧ s.tank = (c.tank : Int)
    ∧ s.offtank = (c.offtank : Int) ∧ s.offdps = (c.offdps : Int)
    ∧ s.sameDpsClass = (c.sameDpsClass : Int)
    ∧ c.dps + c.offdps ≤ n ∧ c.heal ≤ n ∧ c.tank + c.offtank ≤ n ∧ c.sameDpsClass ≤ n
    ∧ (c.tank = 0 → 0 < c.offtank → c.offdps = 0 → 3 ≤ c.dps)

/-! ## Role inference: lemmas -/

theorem roleOfTab_values (c : Classes) (tab : Int) :
    roleOfTab c tab = 0 ∨ roleOfTab c tab = 1 ∨ roleOfTab c tab = 2 ∨ roleOfTab c tab = 4
      ∨ roleOfTab c tab = 5 := by
  cases c <;> simp only [roleOfTab] <;> first | decide | (split_ifs <;> decide)

theorem calculateTalentRoles_values (S : DBCStores) (p : Player) :
    CalculateTalentRoles S p = 0 ∨ CalculateTalentRoles S p = 1 ∨ CalculateTalentRoles S p = 2
      ∨ CalculateTalentRoles S p = 4 ∨ CalculateTalentRoles S p = 5 :=
  roleOfTab_values _ _

/-- A role with the Tank bit has no Healer bit. -/
theorem tank_role_not_healer (S : DBCStores) (p : Player)
    (h : hasRole (CalculateTalentRoles S p) LFG_ROLE_TANK = true) :
    hasRole (CalculateTalentRoles S p) LFG_ROLE_HEALER = false := by
  rcases calculateTalentRoles_values S p with h0 | h0 | h0 | h0 | h0 <;> rw [h0] at h ⊢ <;>
    first | rfl | exact absurd h (by decide)

theorem highestTabLoop_fst (tabs : Nat → Int) :
    (highestTabLoop tabs).1 =
      if tabs 0 < tabs 1 then (if tabs 1 < tabs 2 then 2 else 1)
      else (if tabs 0 < tabs 2 then 2 else 0) := by
  simp only [highestTabLoop, List.range_succ, List.range_zero, List.nil_append,
    List.cons_append, List.foldl_cons, List.foldl_nil]
  split_ifs <;> simp_all

/-! ## Claims on the role classifier and the pairwise check -/

/-- C2: `IsCompatibleWithPlayer` returns false exactly when both roles contain Tank,
or both contain Healer, or both contain DPS and the classes are equal; so two
characters of one class whose roles both contain DPS are incompatible. -/
theorem isCompatibleWithPlayer_false_iff (S : DBCStores) (a b : Player) :
    (IsCompatibleWithPlayer S a b = false ↔
      (hasRole (CalculateTalentRoles S a) LFG_ROLE_TANK = true
          ∧ hasRole (CalculateTalentRoles S b) LFG_ROLE_TANK = true)
        ∨ (hasRole (CalculateTalentRoles S a) LFG_ROLE_HEALER = true
          ∧ hasRole (CalculateTalentRoles S b) LFG_ROLE_HEALER = true)
        ∨ (hasRole (CalculateTalentRoles S a) LFG_ROLE_DPS = true
          ∧ hasRole (CalculateTalentRoles S b) LFG_ROLE_DPS = true ∧ a.cls = b.cls))
    ∧ (a.cls = b.cls → hasRole (CalculateTalentRoles S a) LFG_ROLE_DPS = true →
        hasRole (CalculateTalentRoles S b) LFG_ROLE_DPS = true →
        IsCompatibleWithPlayer S a b = false) := by
  have key : IsCompatibleWithPlayer S a b = false ↔
      (hasRole (CalculateTalentRoles S a) LFG_ROLE_TANK = true
          ∧ hasRole (CalculateTalentRoles S b) LFG_ROLE_TANK = true)
        ∨ (hasRole (CalculateTalentRoles S a) LFG_ROLE_HEALER = true
          ∧ hasRole (CalculateTalentRoles S b) LFG_ROLE_HEALER = true)
        ∨ (hasRole (CalculateTalentRoles S a) LFG_ROLE_DPS = true
          ∧ hasRole (CalculateTalentRoles S b) LFG_ROLE_DPS = true ∧ a.cls = b.cls) := by
    simp only [IsCompatibleWithPlayer]
    generalize hasRole (CalculateTalentRoles S a) LFG_ROLE_TANK = ta
    generalize hasRole (CalculateTalentRoles S b) LFG_ROLE_TANK = tb
    generalize hasRole (CalculateTalentRoles S a) LFG_ROLE_HEALER = ha
    generalize hasRole (CalculateTalentRoles S b) LFG_ROLE_HEALER = hb
    generalize hasRole (CalculateTalentRoles S a) LFG_ROLE_DPS = da
    generalize hasRole (CalculateTalentRoles S b) LFG_ROLE_DPS = db
    by_cases hc : a.cls = b.cls <;>
      cases ta <;> cases tb <;> cases ha <;> cases hb <;> cases da <;> cases db <;> simp [hc]
  exact ⟨key, fun hc hda hdb => key.mpr (Or.inr (Or.inr ⟨hda, hdb, hc⟩))⟩

/-- Two Mages below level 10 or with unspent points are incompatible (C2 applied). -/
theorem isCompatibleWithPlayer_false_iff_witness :
    IsCompatibleWithPlayer exStores exMage exMage2 = false :=
  (isCompatibleWithPlayer_false_iff exStores exMage exMage2).2 (by decide) (by decide)
    (by decide)

/-- C3: when the dominant tree index is `t` in {0,1,2}, `CalculateTalentRoles` gives
the entry of the fixed table: Priest 2 → DPS, else Healer; Shaman 2 → Healer, else
DPS; Warrior 2 → Tank, else DPS; Paladin 0 → Healer, 1 → Tank, 2 → DPS; Druid 0 → DPS,
1 → Tank|DPS, 2 → Healer; every other class DPS. -/
theorem calculateTalentRoles_table (S : DBCStores) (p : Player) (t : Nat) (ht : t < 3)
    (hp : GetHighestTalentTree S p = (t : Int)) :
    (p.cls = Classes.CLASS_PRIEST →
        CalculateTalentRoles S p = if t = 2 then LFG_ROLE_DPS else LFG_ROLE_HEALER)
    ∧ (p.cls = Classes.CLASS_SHAMAN →
        CalculateTalentRoles S p = if t = 2 then LFG_ROLE_HEALER else LFG_ROLE_DPS)
    ∧ (p.cls = Classes.CLASS_WARRIOR →
        CalculateTalentRoles S p = if t = 2 then LFG_ROLE_TANK else LFG_ROLE_DPS)
    ∧ (p.cls = Classes.CLASS_PALADIN →
        CalculateTalentRoles S p =
          if t = 0 then LFG_ROLE_HEALER else if t = 1 then LFG_ROLE_TANK else LFG_ROLE_DPS)
    ∧ (p.cls = Classes.CLASS_DRUID →
        CalculateTalentRoles S p =
          if t = 0 then LFG_ROLE_DPS else if t = 1 then LFG_ROLE_TANK ||| LFG_ROLE_DPS
          else LFG_ROLE_HEALER)
    ∧ (p.cls ≠ Classes.CLASS_PRIEST → p.cls ≠ Classes.CLASS_SHAMAN →
        p.cls ≠ Classes.CLASS_WARRIOR → p.cls ≠ Classes.CLASS_PALADIN →
        p.cls ≠ Classes.CLASS_DRUID → CalculateTalentRoles S p = LFG_ROLE_DPS) := by
  unfold CalculateTalentRoles
  rw [hp]
  have h3 : t = 0 ∨ t = 1 ∨ t = 2 := by omega
  refine ⟨?_, ?_, ?_, ?_, ?_, ?_⟩
  · intro hc; rw [hc]; rcases h3 with h | h | h <;> subst h <;> rfl
  · intro hc; rw [hc]; rcases h3 with h | h | h <;> subst h <;> rfl
  · intro hc; rw [hc]; rcases h3 with h | h | h <;> subst h <;> rfl
  · intro hc; rw [hc]; rcases h3 with h | h | h <;> subst h <;> rfl
  · intro hc; rw [hc]; rcases h3 with h | h | h <;> subst h <;> rfl
  · intro h1 h2 h3 h4 h5
    cases hcls : p.cls <;> simp_all [roleOfTab]

/-- The Druid of the examples has dominant tree 1 and gets Tank|DPS (C3 applied). -/
theorem calculateTalentRoles_table_witness :
    CalculateTalentRoles exStores exFeral = LFG_ROLE_TANK ||| LFG_ROLE_DPS :=
  (calculateTalentRoles_table exStores exFeral 1 (by decide) (by decide)).2.2.2.2.1
    (by decide)

/-- C4: for a character of level at least 10 without unspent points,
`GetHighestTalentTree` returns the smallest index in {0,1,2} whose total is the
maximum of the three totals; with `total[0] = total[1] ≥ total[2]` it returns 0. -/
theorem getHighestTalentTree_first_max (S : DBCStores) (p : Player)
    (hl : p.level ≥ 10) (hf : p.freeTalentPoints = 0) :
    (∃ i : Nat, i < 3 ∧ GetHighestTalentTree S p = (i : Int)
        ∧ (∀ j : Nat, j < 3 → GetTalentTrees S p j ≤ GetTalentTrees S p i)
        ∧ (∀ j : Nat, j < i → GetTalentTrees S p j < GetTalentTrees S p i))
    ∧ (GetTalentTrees S p 0 = GetTalentTrees S p 1 →
        GetTalentTrees S p 2 ≤ GetTalentTrees S p 0 → GetHighestTalentTree S p = 0) := by
  have hg : GetHighestTalentTree S p = (highestTabLoop (GetTalentTrees S p)).1 := by
    unfold GetHighestTalentTree
    rw [if_pos ⟨hl, hf⟩]
  rw [hg, highestTabLoop_fst]
  generalize GetTalentTrees S p = tabs
  have small : ∀ j : Nat, j < 3 → j = 0 ∨ j = 1 ∨ j = 2 := by intro j hj; omega
  refine ⟨?_, ?_⟩
  · by_cases h01 : tabs 0 < tabs 1
    · by_cases h12 : tabs 1 < tabs 2
      · refine ⟨2, by decide, by simp [h01, h12], ?_, ?_⟩
        · intro j hj
          rcases small j hj with h | h | h <;> subst h <;> omega
        · intro j hj
          rcases small j (by omega) with h | h | h <;> subst h <;> omega
      · refine ⟨1, by decide, by simp [h01, h12], ?_, ?_⟩
        · intro j hj
          rcases small j hj with h | h | h <;> subst h <;> omega
        · intro j hj
          rcases small j (by omega) with h | h | h <;> subst h <;> omega
    · by_cases h02 : tabs 0 < tabs 2
      · refine ⟨2, by decide, by simp [h01, h02], ?_, ?_⟩
        · intro j hj
          rcases small j hj with h | h | h <;> subst h <;> omega
        · intro j hj
          rcases small j (by omega) with h | h | h <;> subst h <;> omega
      · refine ⟨0, by decide, by simp [h01, h02], ?_, ?_⟩
        · intro j hj
          rcases small j hj with h | h | h <;> subst h <;> omega
        · intro j hj
          omega
  · intro h1 h2
    rw [if_neg (by omega), if_neg (by omega)]

/-- The Warrior of the examples, level 70 with all points spent, resolves to tree 2
(C4 applied): the first conjunct names an index and the second is vacuous for it. -/
theorem getHighestTalentTree_first_max_witness :
    ∃ i : Nat, i < 3 ∧ GetHighestTalentTree exStores exTank = (i : Int)
      ∧ (∀ j : Nat, j < 3 → GetTalentTrees exStores exTank j ≤ GetTalentTrees exStores exTank i)
      ∧ (∀ j : Nat, j < i → GetTalentTrees exStores exTank j < GetTalentTrees exStores exTank i) :=
  (getHighestTalentTree_first_max exStores exTank (by decide) (by decide)).1

/-- C5: below level 10 or with unspent talent points, `GetHighestTalentTree` returns
the class default (1 for Mage and Priest, 2 for Paladin, 0 otherwise) whatever was
learned, so `CalculateTalentRoles` is the same for all such characters of a class,
over any talent tables. -/
theorem getHighestTalentTree_default (S : DBCStores) (p : Player)
    (h : p.level < 10 ∨ p.freeTalentPoints ≠ 0) :
    (p.cls = Classes.CLASS_MAGE ∨ p.cls = Classes.CLASS_PRIEST →
        GetHighestTalentTree S p = 1)
    ∧ (p.cls = Classes.CLASS_PALADIN → GetHighestTalentTree S p = 2)
    ∧ (p.cls ≠ Classes.CLASS_MAGE → p.cls ≠ Classes.CLASS_PRIEST →
        p.cls ≠ Classes.CLASS_PALADIN → GetHighestTalentTree S p = 0)
    ∧ (∀ (S2 : DBCStores) (q : Player), (q.level < 10 ∨ q.freeTalentPoints ≠ 0) →
        q.cls = p.cls → CalculateTalentRoles S2 q = CalculateTalentRoles S p) := by
  have hdef : ∀ (S1 : DBCStores) (r : Player), (r.level < 10 ∨ r.freeTalentPoints ≠ 0) →
      GetHighestTalentTree S1 r = defaultTab r.cls := by
    intro S1 r hr
    unfold GetHighestTalentTree
    rw [if_neg]
    rintro ⟨h1, h2⟩
    omega
  refine ⟨?_, ?_, ?_, ?_⟩
  · rintro (hc | hc) <;> rw [hdef S p h, hc] <;> rfl
  · intro hc; rw [hdef S p h, hc]; rfl
  · intro h1 h2 h3
    rw [hdef S p h]
    cases hcls : p.cls <;> simp_all [defaultTab]
  · intro S2 q hq hc
    unfold CalculateTalentRoles
    rw [hdef S p h, hdef S2 q hq, hc]

/-- The level 5 Priest of the examples resolves to tree 1 (C5 applied). -/
theorem getHighestTalentTree_default_witness :
    GetHighestTalentTree exStores exPriest = 1 :=
  (getHighestTalentTree_default exStores exPriest (Or.inl (by decide))).1 (Or.inr (by decide))

/-- C7: `IsCompatibleWithPlayer` is symmetric. -/
theorem isCompatibleWithPlayer_symm (S : DBCStores) (a b : Player) :
    IsCompatibleWithPlayer S a b = IsCompatibleWithPlayer S b a := by
  have hcls : decide (a.cls = b.cls) = decide (b.cls = a.cls) :=
    decide_eq_decide.mpr ⟨Eq.symm, Eq.symm⟩
  simp only [IsCompatibleWithPlayer, hcls]
  generalize hasRole (CalculateTalentRoles S a) LFG_ROLE_TANK = ta
  generalize hasRole (CalculateTalentRoles S b) LFG_ROLE_TANK = tb
  generalize hasRole (CalculateTalentRoles S a) LFG_ROLE_HEALER = ha
  generalize hasRole (CalculateTalentRoles S b) LFG_ROLE_HEALER = hb
  generalize hasRole (CalculateTalentRoles S a) LFG_ROLE_DPS = da
  generalize hasRole (CalculateTalentRoles S b) LFG_ROLE_DPS = db
  generalize decide (b.cls = a.cls) = e
  cases ta <;> cases tb <;> cases ha <;> cases hb <;> cases da <;> cases db <;> cases e <;> rfl

/-! ## The group check against the reference procedure -/

theorem countersRel_zero : CountersRel 0 {} {} := by
  simp [CountersRel]

theorem countersRel_mono {n : Nat} {c : Counters} {s : SpecCounters}
    (h : CountersRel n c s) : CountersRel (n + 1) c s := by
  obtain ⟨h1, h2, h3, h4, h5, h6, h7, h8, h9, h10, h11⟩ := h
  exact ⟨h1, h2, h3, h4, h5, h6, by omega, by omega, by omega, by omega, h11⟩

theorem countersRel_step (m : Nat) (sc : Bool) {n : Nat} {c : Counters} {s : SpecCounters}
    (h : CountersRel n c s) (hn : n + 1 < 4294967296) :
    CountersRel (n + 1) (countRole m sc c) (specCountMember m sc s) := by
  obtain ⟨cd, ch, ct, cot, cod, csd⟩ := c
  obtain ⟨sd, sh, st, sot, sod, ssd⟩ := s
  simp only [CountersRel] at h
  obtain ⟨h1, h2, h3, h4, h5, h6, h7, h8, h9, h10, h11⟩ := h
  subst h1 h2 h3 h4 h5 h6
  simp only [countRole, specCountMember, inc32]
  generalize hasRole m LFG_ROLE_DPS = d
  generalize hasRole m LFG_ROLE_TANK = t
  generalize hasRole m LFG_ROLE_HEALER = hl
  cases d <;> cases t <;> cases hl <;> cases sc <;>
    simp only [CountersRel, Bool.true_and, Bool.false_and, Bool.and_true, if_true, if_false,
      Bool.false_eq_true, true_and, false_and, Bool.or_eq_true, bne_iff_ne, ne_eq,
      decide_eq_true_eq, beq_iff_eq, ge_iff_le] <;>
    (try split_ifs) <;> (try dsimp only at *) <;> (try simp only [CountersRel, true_and]) <;>
    omega

theorem countersRel_pass (S : DBCStores) (cand : Player) :
    ∀ (refs : List (Option Player)) (n : Nat) (c : Counters) (s : SpecCounters),
      CountersRel n c s → n + refs.length < 4294967296 →
      CountersRel (n + refs.length) (refs.foldl (memberStep S cand.cls) c)
        (refs.reduceOption.foldl
          (fun c m =>
            specCountMember (CalculateTalentRoles S m) (decide (m.cls = cand.cls)) c) s) := by
  intro refs
  induction refs with
  | nil => intro n c s h _; simpa using h
  | cons r rest ih =>
    intro n c s h hn
    have hlen : n + (r :: rest).length = (n + 1) + rest.length := by
      simp only [List.length_cons]; omega
    rw [hlen] at hn ⊢
    cases r with
    | none =>
      rw [List.reduceOption_cons_of_none, List.foldl_cons]
      exact ih (n + 1) c s (countersRel_mono h) hn
    | some m =>
      rw [List.reduceOption_cons_of_some, List.foldl_cons, List.foldl_cons]
      exact ih (n + 1) _ _ (countersRel_step _ _ h (by omega)) hn

theorem verdict_eq_spec (role n : Nat) (c : Counters) (s : SpecCounters)
    (h : CountersRel n c s) (hn : n < 4294967296) :
    verdict role (foldStep (promoteStep c)) = !specReject role (specFold (specPromote s)) := by
  obtain ⟨cd, ch, ct, cot, cod, csd⟩ := c
  obtain ⟨sd, sh, st, sot, sod, ssd⟩ := s
  simp only [CountersRel] at h
  obtain ⟨h1, h2, h3, h4, h5, h6, h7, h8, h9, h10, h11⟩ := h
  subst h1 h2 h3 h4 h5 h6
  have facts :
      (decide ((foldStep (promoteStep ⟨cd, ch, ct, cot, cod, csd⟩)).dps ≥ 3)
          = decide ((specFold (specPromote ⟨cd, ch, ct, cot, cod, csd⟩)).dps ≥ 3))
      ∧ (((foldStep (promoteStep ⟨cd, ch, ct, cot, cod, csd⟩)).sameDpsClass != 0)
          = decide ((specFold (specPromote ⟨cd, ch, ct, cot, cod, csd⟩)).sameDpsClass > 0))
      ∧ (decide ((foldStep (promoteStep ⟨cd, ch, ct, cot, cod, csd⟩)).heal ≥ 1)
          = decide ((specFold (specPromote ⟨cd, ch, ct, cot, cod, csd⟩)).heal ≥ 1))
      ∧ (decide ((foldStep (promoteStep ⟨cd, ch, ct, cot, cod, csd⟩)).tank ≥ 1)
          = decide ((specFold (specPromote ⟨cd, ch, ct, cot, cod, csd⟩)).tank ≥ 1)) := by
    refine ⟨decide_eq_decide.mpr ?_, Bool.eq_iff_iff.mpr ?_, decide_eq_decide.mpr ?_,
      decide_eq_decide.mpr ?_⟩ <;>
    simp only [foldStep, promoteStep, specFold, specPromote, dec32, inc32,
      add32, Bool.and_eq_true, bne_iff_ne, ne_eq, decide_eq_true_eq, beq_iff_eq, ge_iff_le] <;>
    split_ifs <;> dsimp only at * <;> omega
  obtain ⟨f1, f2, f3, f4⟩ := facts
  simp only [verdict, specReject, f1, f2, f3, f4]
  generalize hasRole role LFG_ROLE_DPS = d
  generalize hasRole role LFG_ROLE_TANK = t
  generalize hasRole role LFG_ROLE_HEALER = hl
  generalize (specFold (specPromote ⟨cd, ch, ct, cot, cod, csd⟩)) = s1
  by_cases p1 : s1.dps ≥ 3 <;> by_cases p2 : s1.sameDpsClass > 0 <;>
    by_cases p3 : s1.heal ≥ 1 <;> by_cases p4 : s1.tank ≥ 1 <;>
    cases d <;> cases t <;> cases hl <;> simp [p1, p2, p3, p4]

/-- C1: for a non-null group of fewer than `2 ^ 32` references,
`IsCompatibleWithGroup` gives the result of the reference procedure of the
specification (pass over the members, promotion step, fold step, rejection test on
unbounded counters), so it is false exactly when one of the three rejection
conditions holds for the reference counters. -/
theorem isCompatibleWithGroup_eq_spec (S : DBCStores) (candidate : Player)
    (refs : List (Option Player)) (hlen : refs.length < 4294967296) :
    IsCompatibleWithGroup S candidate (some refs)
        = specIsCompatibleWithGroup S candidate refs.reduceOption
    ∧ (IsCompatibleWithGroup S candidate (some refs) = false ↔
        (hasRole (CalculateTalentRoles S candidate) LFG_ROLE_DPS = true
            ∧ ¬ hasRole (CalculateTalentRoles S candidate) LFG_ROLE_TANK = true
            ∧ ((specFold (specPromote (specPass S candidate refs.reduceOption))).dps ≥ 3
              ∨ (specFold (specPromote (specPass S candidate refs.reduceOption))).sameDpsClass
                  > 0))
          ∨ (hasRole (CalculateTalentRoles S candidate) LFG_ROLE_HEALER = true
            ∧ (specFold (specPromote (specPass S candidate refs.reduceOption))).heal ≥ 1)
          ∨ (hasRole (CalculateTalentRoles S candidate) LFG_ROLE_TANK = true
            ∧ ¬ hasRole (CalculateTalentRoles S candidate) LFG_ROLE_DPS = true
            ∧ (specFold (specPromote (specPass S candidate refs.reduceOption))).tank ≥ 1)) := by
  have hrel := countersRel_pass S candidate refs 0 {} {} countersRel_zero (by omega)
  have hv := verdict_eq_spec (CalculateTalentRoles S candidate) _ _ _ hrel (by omega)
  have heq : IsCompatibleWithGroup S candidate (some refs)
      = specIsCompatibleWithGroup S candidate refs.reduceOption := hv
  refine ⟨heq, ?_⟩
  rw [heq]
  simp only [specIsCompatibleWithGroup, specReject, Bool.not_eq_false', decide_eq_true_eq]

/-- The group check agrees with the reference procedure on a group with a null
reference, a Tank|DPS Druid, a Tank and a Mage (C1 applied). -/
theorem isCompatibleWithGroup_eq_spec_witness :
    IsCompatibleWithGroup exStores exWarlock
        (some [some exFeral, none, some exTank, some exMage])
      = specIsCompatibleWithGroup exStores exWarlock [exFeral, exTank, exMage] :=
  (isCompatibleWithGroup_eq_spec exStores exWarlock
    [some exFeral, none, some exTank, some exMage] (by decide)).1

/-! ## Groups without a pure tank -/

theorem countRole_noTank (m : Nat) (sc : Bool) (c : Counters)
    (h : hasRole m LFG_ROLE_TANK = false) :
    (countRole m sc c).tank = c.tank ∧ (countRole m sc c).offtank = c.offtank
      ∧ (countRole m sc c).offdps = c.offdps
      ∧ (countRole m sc c).dps = if hasRole m LFG_ROLE_DPS then inc32 c.dps else c.dps := by
  simp only [countRole, h]
  cases hasRole m LFG_ROLE_DPS <;> cases hasRole m LFG_ROLE_HEALER <;> cases sc <;> simp

theorem pass_noTank (S : DBCStores) (myClass : Classes) :
    ∀ (refs : List (Option Player)) (c : Counters),
      (∀ m, some m ∈ refs → hasRole (CalculateTalentRoles S m) LFG_ROLE_TANK = false) →
      c.dps < 4294967296 →
      (refs.foldl (memberStep S myClass) c).tank = c.tank
        ∧ (refs.foldl (memberStep S myClass) c).offtank = c.offtank
        ∧ (refs.foldl (memberStep S myClass) c).offdps = c.offdps
        ∧ (refs.foldl (memberStep S myClass) c).dps
            = (c.dps + dpsCount S refs) % 4294967296 := by
  intro refs
  induction refs with
  | nil =>
    intro c _ hc
    simp only [List.foldl_nil, dpsCount, List.filter_nil, List.length_nil, Nat.add_zero,
      true_and]
    omega
  | cons r rest ih =>
    intro c hnt hc
    have hrest : ∀ m, some m ∈ rest →
        hasRole (CalculateTalentRoles S m) LFG_ROLE_TANK = false :=
      fun m hm => hnt m (List.mem_cons_of_mem _ hm)
    rw [List.foldl_cons]
    cases r with
    | none =>
      have hcount : dpsCount S (none :: rest) = dpsCount S rest := by
        simp [dpsCount]
      rw [hcount]
      exact ih c hrest hc
    | some m =>
      have hm := hnt m (List.mem_cons_self _ _)
      obtain ⟨h1, h2, h3, h4⟩ :=
        countRole_noTank (CalculateTalentRoles S m) (decide (m.cls = myClass)) c hm
      have hlt : (countRole (CalculateTalentRoles S m) (decide (m.cls = myClass)) c).dps
          < 4294967296 := by
        rw [h4]; unfold inc32; split_ifs <;> omega
      obtain ⟨i1, i2, i3, i4⟩ := ih (memberStep S myClass c (some m)) hrest hlt
      refine ⟨i1.trans h1, i2.trans h2, i3.trans h3, ?_⟩
      rw [i4]
      show ((countRole (CalculateTalentRoles S m) (decide (m.cls = myClass)) c).dps
        + dpsCount S rest) % 4294967296 = _
      rw [h4]
      by_cases hd : hasRole (CalculateTalentRoles S m) LFG_ROLE_DPS = true
      · have hcount : dpsCount S (some m :: rest) = dpsCount S rest + 1 := by
          simp [dpsCount, hd]
        rw [hcount, if_pos hd]; unfold inc32; omega
      · have hcount : dpsCount S (some m :: rest) = dpsCount S rest := by
          simp [dpsCount, hd]
        rw [hcount, if_neg hd]

theorem verdict_tank_role (S : DBCStores) (p : Player) (c : Counters)
    (hr : hasRole (CalculateTalentRoles S p) LFG_ROLE_TANK = true) (ht : c.tank = 0) :
    verdict (CalculateTalentRoles S p) c = true := by
  have e11 : hasRole 1 LFG_ROLE_TANK = true := by decide
  have e12 : hasRole 1 LFG_ROLE_HEALER = false := by decide
  have e14 : hasRole 1 LFG_ROLE_DPS = false := by decide
  have e51 : hasRole 5 LFG_ROLE_TANK = true := by decide
  have e52 : hasRole 5 LFG_ROLE_HEALER = false := by decide
  have e54 : hasRole 5 LFG_ROLE_DPS = true := by decide
  rcases calculateTalentRoles_values S p with h0 | h0 | h0 | h0 | h0 <;> rw [h0] at hr ⊢
  · exact absurd hr (by decide)
  · simp [verdict, e11, e12, e14, ht]
  · exact absurd hr (by decide)
  · exact absurd hr (by decide)
  · simp [verdict, e51, e52, e54]

/-- C8: when the members yield a counted `dps` of at least 3 and no member has the
Tank bit, `IsCompatibleWithGroup` rejects every candidate with DPS and without Tank,
whatever its class, and accepts every candidate whose role contains Tank. -/
theorem isCompatibleWithGroup_dps_cap (S : DBCStores) (candidate : Player)
    (refs : List (Option Player))
    (hdps : (passCounters S candidate.cls refs).dps ≥ 3)
    (hnt : ∀ m, some m ∈ refs → hasRole (CalculateTalentRoles S m) LFG_ROLE_TANK = false) :
    (hasRole (CalculateTalentRoles S candidate) LFG_ROLE_DPS = true →
        hasRole (CalculateTalentRoles S candidate) LFG_ROLE_TANK = false →
        IsCompatibleWithGroup S candidate (some refs) = false)
    ∧ (hasRole (CalculateTalentRoles S candidate) LFG_ROLE_TANK = true →
        IsCompatibleWithGroup S candidate (some refs) = true) := by
  obtain ⟨ht, hot, hod, _⟩ := pass_noTank S candidate.cls refs {} hnt (by decide)
  have hp : promoteStep (passCounters S candidate.cls refs) = passCounters S candidate.cls refs := by
    unfold promoteStep passCounters
    rw [hot]
    simp
  have hf : foldStep (passCounters S candidate.cls refs) = passCounters S candidate.cls refs := by
    unfold foldStep passCounters
    rw [hod]
    simp
  have hv : IsCompatibleWithGroup S candidate (some refs)
      = verdict (CalculateTalentRoles S candidate) (passCounters S candidate.cls refs) := by
    simp only [IsCompatibleWithGroup, hp, hf]
  rw [hv]
  refine ⟨?_, ?_⟩
  · intro hd htk
    simp [verdict, hd, htk, hdps]
  · intro htk
    exact verdict_tank_role S candidate _ htk ht

/-- A Mage, a Hunter and a Rogue form a group with three counted DPS and no tank: the
Warlock is rejected (C8 applied). -/
theorem isCompatibleWithGroup_dps_cap_witness :
    IsCompatibleWithGroup exStores exWarlock (some [some exMage, some exHunter, some exRogue])
      = false :=
  (isCompatibleWithGroup_dps_cap exStores exWarlock [some exMage, some exHunter, some exRogue]
    (by decide)
    (by
      intro m hm
      simp only [List.mem_cons, Option.some.injEq, List.mem_singleton] at hm
      rcases hm with h | h | h | h
      · rw [h]; decide
      · rw [h]; decide
      · rw [h]; decide
      · cases h)).1 (by decide) (by decide)

/-! ## A single Tank|DPS member -/

theorem hybrid_is_druid (S : DBCStores) (p : Player)
    (h : CalculateTalentRoles S p = LFG_ROLE_TANK ||| LFG_ROLE_DPS) :
    p.cls = Classes.CLASS_DRUID := by
  unfold CalculateTalentRoles at h
  cases hc : p.cls <;> rw [hc] at h <;> simp only [roleOfTab] at h <;>
    first
    | rfl
    | exact absurd h (by decide)
    | (split_ifs at h <;> exact absurd h (by decide))

theorem countRole_hybrid (sc : Bool) (c : Counters) (ht : c.tank = 0) :
    (countRole 5 sc c).tank = 0 ∧ (countRole 5 sc c).offtank = inc32 c.offtank
      ∧ (countRole 5 sc c).offdps = (if c.dps < 3 then inc32 c.offdps else c.offdps)
      ∧ (countRole 5 sc c).dps = (if c.dps < 3 then c.dps else inc32 c.dps) := by
  have e1 : hasRole 5 LFG_ROLE_TANK = true := by decide
  have e2 : hasRole 5 LFG_ROLE_HEALER = false := by decide
  have e4 : hasRole 5 LFG_ROLE_DPS = true := by decide
  simp only [countRole, e1, e2, e4, ht]
  by_cases hd : c.dps < 3 <;> cases sc <;> simp [hd, ht]

theorem promote_hybrid_alone (b : Bool) :
    foldStep (promoteStep (countRole 5 b {}))
      = { tank := 1, sameDpsClass := if b then 1 else 0 } := by
  cases b <;> decide

/-- C9, as the code has it: in a group with exactly one Tank|DPS member and no other
member with the Tank bit, the counters after the promotion step have `tank = 1` and
`offtank = 0`; when fewer than three members with the DPS bit come before the hybrid,
also `offdps = 0` and `dps` counts the other members only.  For the group of the
hybrid alone `tank = 1` and `dps = 0`, a Tank-only candidate is rejected and a DPS-only
candidate that is not a Druid is accepted. -/
theorem hybrid_promotion (S : DBCStores) (myClass : Classes)
    (pre post : List (Option Player)) (F : Player)
    (hF : CalculateTalentRoles S F = LFG_ROLE_TANK ||| LFG_ROLE_DPS)
    (hpre : ∀ m, some m ∈ pre → hasRole (CalculateTalentRoles S m) LFG_ROLE_TANK = false)
    (hpost : ∀ m, some m ∈ post → hasRole (CalculateTalentRoles S m) LFG_ROLE_TANK = false) :
    (promoteStep (passCounters S myClass (pre ++ some F :: post))).tank = 1
    ∧ (promoteStep (passCounters S myClass (pre ++ some F :: post))).offtank = 0
    ∧ (dpsCount S pre < 3 →
        (promoteStep (passCounters S myClass (pre ++ some F :: post))).offdps = 0
        ∧ (promoteStep (passCounters S myClass (pre ++ some F :: post))).dps
            = (dpsCount S pre + dpsCount S post) % 4294967296)
    ∧ (promoteStep (passCounters S myClass [some F])).tank = 1
    ∧ (promoteStep (passCounters S myClass [some F])).dps = 0
    ∧ (∀ cand : Player, CalculateTalentRoles S cand = LFG_ROLE_TANK →
        IsCompatibleWithGroup S cand (some [some F]) = false)
    ∧ (∀ cand : Player, CalculateTalentRoles S cand = LFG_ROLE_DPS →
        cand.cls ≠ Classes.CLASS_DRUID →
        IsCompatibleWithGroup S cand (some [some F]) = true) := by
  have hF5 : CalculateTalentRoles S F = 5 := hF
  have alone : ∀ cls : Classes, passCounters S cls [some F]
      = countRole 5 (decide (F.cls = cls)) {} := by
    intro cls
    simp only [passCounters, List.foldl_cons, List.foldl_nil, memberStep, hF5]
  have general :
      (promoteStep (passCounters S myClass (pre ++ some F :: post))).tank = 1
      ∧ (promoteStep (passCounters S myClass (pre ++ some F :: post))).offtank = 0
      ∧ (dpsCount S pre < 3 →
          (promoteStep (passCounters S myClass (pre ++ some F :: post))).offdps = 0
          ∧ (promoteStep (passCounters S myClass (pre ++ some F :: post))).dps
              = (dpsCount S pre + dpsCount S post) % 4294967296) := by
    obtain ⟨a1, a2, a3, a4⟩ := pass_noTank S myClass pre {} hpre (by decide)
    have a1' : (pre.foldl (memberStep S myClass) {}).tank = 0 := a1
    have a2' : (pre.foldl (memberStep S myClass) {}).offtank = 0 := a2
    have a3' : (pre.foldl (memberStep S myClass) {}).offdps = 0 := a3
    have a4' : (pre.foldl (memberStep S myClass) {}).dps = dpsCount S pre % 4294967296 := by
      rw [a4]
      show (0 + dpsCount S pre) % 4294967296 = _
      rw [Nat.zero_add]
    obtain ⟨b1, b2, b3, b4⟩ :=
      countRole_hybrid (decide (F.cls = myClass)) (pre.foldl (memberStep S myClass) {}) a1'
    have hstep : memberStep S myClass (pre.foldl (memberStep S myClass) {}) (some F)
        = countRole 5 (decide (F.cls = myClass)) (pre.foldl (memberStep S myClass) {}) := by
      simp only [memberStep, hF5]
    have hlt : (countRole 5 (decide (F.cls = myClass))
        (pre.foldl (memberStep S myClass) {})).dps < 4294967296 := by
      rw [b4, a4']; unfold inc32; split_ifs <;> omega
    obtain ⟨c1, c2, c3, c4⟩ := pass_noTank S myClass post _ hpost hlt
    have hpass : passCounters S myClass (pre ++ some F :: post)
        = post.foldl (memberStep S myClass)
            (countRole 5 (decide (F.cls = myClass)) (pre.foldl (memberStep S myClass) {})) := by
      simp only [passCounters, List.foldl_append, List.foldl_cons, hstep]
    rw [hpass]
    rw [b1] at c1
    rw [b2, a2'] at c2
    rw [b3, a3', a4'] at c3
    rw [b4, a4'] at c4
    have i1 : inc32 0 = 1 := by decide
    rw [i1] at c2 c3
    simp only [promoteStep, c1, c2, beq_self_eq_true, Bool.true_and, bne_iff_ne, ne_eq,
      one_ne_zero, not_false_eq_true, decide_True, if_true, i1]
    refine ⟨trivial, by decide, ?_⟩
    intro hlt3
    have hmod : dpsCount S pre % 4294967296 = dpsCount S pre := Nat.mod_eq_of_lt (by omega)
    rw [hmod] at c3 c4
    rw [if_pos hlt3] at c3 c4
    rw [c3, c4]
    exact ⟨by decide, rfl⟩
  refine ⟨general.1, general.2.1, general.2.2, ?_, ?_, ?_, ?_⟩
  · rw [alone]; cases decide (F.cls = myClass) <;> decide
  · rw [alone]; cases decide (F.cls = myClass) <;> decide
  · intro cand hc
    simp only [IsCompatibleWithGroup, alone, promote_hybrid_alone, hc]
    cases decide (F.cls = cand.cls) <;> decide
  · intro cand hc hnd
    have hFd := hybrid_is_druid S F hF
    have hne : decide (F.cls = cand.cls) = false := by
      rw [hFd]
      exact decide_eq_false (fun h => hnd h.symm)
    simp only [IsCompatibleWithGroup, alone, promote_hybrid_alone, hc, hne]
    decide

/-- The Druid of the examples after a Mage and before a Hunter (C9 as amended, applied):
`tank = 1` and `offtank = 0` after the promotion step. -/
theorem hybrid_promotion_witness :
    (promoteStep (passCounters exStores Classes.CLASS_WARLOCK
        ([some exMage] ++ some exFeral :: [some exHunter]))).tank = 1
    ∧ (promoteStep (passCounters exStores Classes.CLASS_WARLOCK
        ([some exMage] ++ some exFeral :: [some exHunter]))).offtank = 0 :=
  have h := hybrid_promotion exStores Classes.CLASS_WARLOCK [some exMage] [some exHunter]
    exFeral (by decide)
    (by
      intro m hm
      simp only [List.mem_singleton, Option.some.injEq] at hm
      rw [hm]; decide)
    (by
      intro m hm
      simp only [List.mem_singleton, Option.some.injEq] at hm
      rw [hm]; decide)
  ⟨h.1, h.2.1⟩

/-- C9 as stated fails: in the group Mage, Hunter, Rogue, Tank|DPS Druid the Druid is
the only member with the Tank bit, yet after the promotion step `offdps` is
`2 ^ 32 - 1` and `dps` is 4, so the hybrid is counted in `dps`. -/
theorem hybrid_promotion_counterexample :
    CalculateTalentRoles exStores exFeral = LFG_ROLE_TANK ||| LFG_ROLE_DPS
    ∧ hasRole (CalculateTalentRoles exStores exMage) LFG_ROLE_TANK = false
    ∧ hasRole (CalculateTalentRoles exStores exHunter) LFG_ROLE_TANK = false
    ∧ hasRole (CalculateTalentRoles exStores exRogue) LFG_ROLE_TANK = false
    ∧ dpsCount exStores [some exMage, some exHunter, some exRogue] = 3
    ∧ (promoteStep (passCounters exStores Classes.CLASS_WARLOCK
          [some exMage, some exHunter, some exRogue, some exFeral])).offdps = 4294967295
    ∧ (promoteStep (passCounters exStores Classes.CLASS_WARLOCK
          [some exMage, some exHunter, some exRogue, some exFeral])).dps = 4
    ∧ ¬ ((promoteStep (passCounters exStores Classes.CLASS_WARLOCK
          [some exMage, some exHunter, some exRogue, some exFeral])).offdps = 0) := by
  decide

/-! ## Evaluations at the inputs where the code departs from the claims -/

/-- C6 at a character that has learned the rank 1 and the rank 3 spell of one talent:
the highest learned rank is 3, the inner loop of `GetTalentTrees` ends with
`maxRank = 1`, and the total of tab page 1 is 1. -/
theorem getTalentTrees_two_ranks :
    exTwoRanks.HasSpell 101 = true ∧ exTwoRanks.HasSpell 103 = true
    ∧ specHighestRank { TalentTab := 1, RankID := [101, 102, 103, 0, 0] } exTwoRanks = 3
    ∧ talentMaxRank { TalentTab := 1, RankID := [101, 102, 103, 0, 0] } exTwoRanks = 1
    ∧ GetTalentTrees exStores exTwoRanks 1 = 1 := by
  decide

/-- C10 at an advertiser of role Tank without a group and two Healer seekers: when the
second seeker is evaluated the advertiser leads the group created for the first one,
the group check rejects the second seeker for that group, and `AttemptAddMore` adds
it all the same (the stale `_group` selects the pairwise check and a second group is
created). -/
theorem attemptAddMore_stale_group :
    (((addMoreLoop exEnv 0 none [0, 1] exWorld).player 0).bind (fun q => q.group)) = some 0
    ∧ ((addMoreLoop exEnv 0 none [0, 1] exWorld).groups.getD 0 default).members = [0, 1]
    ∧ IsCompatibleWithGroup exEnv.S exSeeker2
        (some ((addMoreLoop exEnv 0 none [0, 1] exWorld).memberRefs 0)) = false
    ∧ IsCompatibleWithPlayer exEnv.S exSeeker2 exAdvertiser = true
    ∧ ((AttemptAddMore exEnv 0 exWorld).groups.getD 0 default).members = [0, 1, 2]
    ∧ (((AttemptAddMore exEnv 0 exWorld).player 2).bind (fun q => q.group)) = some 0
    ∧ (AttemptAddMore exEnv 0 exWorld).groups.length = 2 := by
  decide

/-! ## Further laws of the two compatibility checks -/

theorem single_member_verdict (r1 r2 : Nat) (b : Bool)
    (h1 : r1 = 0 ∨ r1 = 1 ∨ r1 = 2 ∨ r1 = 4 ∨ r1 = 5)
    (h2 : r2 = 0 ∨ r2 = 1 ∨ r2 = 2 ∨ r2 = 4 ∨ r2 = 5) :
    (if hasRole r1 LFG_ROLE_TANK && hasRole r2 LFG_ROLE_TANK then false
      else if hasRole r1 LFG_ROLE_HEALER && hasRole r2 LFG_ROLE_HEALER then false
      else if hasRole r1 LFG_ROLE_DPS && hasRole r2 LFG_ROLE_DPS && b then false
      else true) = true →
    verdict r1 (foldStep (promoteStep (countRole r2 b {}))) = true := by
  rcases h1 with h | h | h | h | h <;> rcases h2 with g | g | g | g | g <;> subst h <;>
    subst g <;> cases b <;> decide

/-- C16: on a group whose only member is `m` the group check accepts every candidate
that the pairwise check against `m` accepts. -/
theorem isCompatibleWithGroup_of_player (S : DBCStores) (c m : Player)
    (h : IsCompatibleWithPlayer S c m = true) :
    IsCompatibleWithGroup S c (some [some m]) = true := by
  have hb : decide (c.cls = m.cls) = decide (m.cls = c.cls) :=
    decide_eq_decide.mpr ⟨Eq.symm, Eq.symm⟩
  simp only [IsCompatibleWithPlayer, hb] at h
  simp only [IsCompatibleWithGroup, passCounters, List.foldl_cons, List.foldl_nil, memberStep]
  exact single_member_verdict _ _ _ (calculateTalentRoles_values S c)
    (calculateTalentRoles_values S m) h

/-- The Priest is pairwise compatible with the Tank, and is accepted by the group of
the Tank alone (C16 applied). -/
theorem isCompatibleWithGroup_of_player_witness :
    IsCompatibleWithGroup exStores exPriest (some [some exTank]) = true :=
  isCompatibleWithGroup_of_player exStores exPriest exTank (by decide)

theorem countRole_offtank_le (m : Nat) (sc : Bool) {n : Nat} {c : Counters} {s : SpecCounters}
    (h : CountersRel n c s) (hn : n + 1 < 4294967296)
    (hinv : c.dps < 3 → c.offtank ≤ c.offdps) :
    (countRole m sc c).dps < 3 → (countRole m sc c).offtank ≤ (countRole m sc c).offdps := by
  obtain ⟨cd, ch, ct, cot, cod, csd⟩ := c
  obtain ⟨sd, sh, st, sot, sod, ssd⟩ := s
  simp only [CountersRel] at h
  obtain ⟨-, -, -, -, -, -, h7, h8, h9, h10, -⟩ := h
  simp only [countRole, inc32]
  generalize hasRole m LFG_ROLE_DPS = d
  generalize hasRole m LFG_ROLE_TANK = t
  generalize hasRole m LFG_ROLE_HEALER = hl
  cases d <;> cases t <;> cases hl <;> cases sc <;>
    simp only [Bool.true_and, Bool.false_and, Bool.and_true, if_true, if_false,
      Bool.false_eq_true, Bool.or_eq_true, bne_iff_ne, ne_eq,
      decide_eq_true_eq, beq_iff_eq, ge_iff_le] <;>
    (try split_ifs) <;> (try dsimp only at *) <;> omega

theorem offtank_le_pass (S : DBCStores) (myClass : Classes) :
    ∀ (refs : List (Option Player)) (n : Nat) (c : Counters) (s : SpecCounters),
      CountersRel n c s → (c.dps < 3 → c.offtank ≤ c.offdps) →
      n + refs.length < 4294967296 →
      (refs.foldl (memberStep S myClass) c).dps < 3 →
      (refs.foldl (memberStep S myClass) c).offtank
        ≤ (refs.foldl (memberStep S myClass) c).offdps := by
  intro refs
  induction refs with
  | nil => intro n c s _ hinv _; simpa using hinv
  | cons r rest ih =>
    intro n c s h hinv hn
    have hlen : n + (r :: rest).length = (n + 1) + rest.length := by
      simp only [List.length_cons]; omega
    rw [hlen] at hn
    rw [List.foldl_cons]
    cases r with
    | none => exact ih (n + 1) c s (countersRel_mono h) hinv hn
    | some m =>
      exact ih (n + 1) _ _ (countersRel_step _ _ h (by omega))
        (countRole_offtank_le _ _ h (by omega) hinv) hn

/-- C17: for a group of fewer than `2 ^ 32` references, when the promotion step runs
with `offdps = 0` then `dps ≥ 3` and the fold step changes nothing; the verdict is the
one of the procedure on unbounded integers; and `dps < 3` after the pass implies
`offtank ≤ offdps`. -/
theorem offdps_wrap_harmless (S : DBCStores) (candidate : Player)
    (refs : List (Option Player)) (hlen : refs.length < 4294967296) :
    ((passCounters S candidate.cls refs).tank = 0 →
        (passCounters S candidate.cls refs).offtank ≠ 0 →
        (passCounters S candidate.cls refs).offdps = 0 →
        3 ≤ (passCounters S candidate.cls refs).dps
          ∧ (promoteStep (passCounters S candidate.cls refs)).offdps = 4294967295
          ∧ foldStep (promoteStep (passCounters S candidate.cls refs))
              = promoteStep (passCounters S candidate.cls refs))
    ∧ IsCompatibleWithGroup S candidate (some refs)
        = specIsCompatibleWithGroup S candidate refs.reduceOption
    ∧ ((passCounters S candidate.cls refs).dps < 3 →
        (passCounters S candidate.cls refs).offtank
          ≤ (passCounters S candidate.cls refs).offdps) := by
  have hrel := countersRel_pass S candidate refs 0 {} {} countersRel_zero (by omega)
  refine ⟨?_, ?_, ?_⟩
  · intro ht hot hod
    have h3 : 3 ≤ (passCounters S candidate.cls refs).dps :=
      hrel.2.2.2.2.2.2.2.2.2.2 ht (Nat.pos_of_ne_zero hot) hod
    refine ⟨h3, ?_, ?_⟩
    · simp only [promoteStep, ht, hod, dec32, beq_self_eq_true, Bool.true_and, bne_iff_ne,
        ne_eq, hot, not_false_eq_true, decide_True, if_true]
    · have hd : (promoteStep (passCounters S candidate.cls refs)).dps
          = (passCounters S candidate.cls refs).dps := by
        unfold promoteStep; split_ifs <;> rfl
      unfold foldStep
      rw [hd, if_neg]
      simp only [Bool.and_eq_true, decide_eq_true_eq, not_and]
      intro hlt
      omega
  · exact verdict_eq_spec (CalculateTalentRoles S candidate) _ _ _ hrel (by omega)
  · exact offtank_le_pass S candidate.cls refs 0 {} {} countersRel_zero (by intro _; exact Nat.le_refl _)
      (by omega)

/-- The group Mage, Hunter, Rogue, Druid runs the promotion step with `offdps = 0`;
`dps` is at least 3 there (C17 applied). -/
theorem offdps_wrap_harmless_witness :
    3 ≤ (passCounters exStores exWarlock.cls
        [some exMage, some exHunter, some exRogue, some exFeral]).dps
    ∧ (promoteStep (passCounters exStores exWarlock.cls
        [some exMage, some exHunter, some exRogue, some exFeral])).offdps = 4294967295
    ∧ foldStep (promoteStep (passCounters exStores exWarlock.cls
          [some exMage, some exHunter, some exRogue, some exFeral]))
        = promoteStep (passCounters exStores exWarlock.cls
          [some exMage, some exHunter, some exRogue, some exFeral]) :=
  (offdps_wrap_harmless exStores exWarlock
    [some exMage, some exHunter, some exRogue, some exFeral] (by decide)).1
    (by decide) (by decide) (by decide)

/-- C18: with a Tank `T`, a Tank|DPS member `F`, two DPS members `D1`, `D2` and a
DPS candidate of a class that none of `F`, `D1`, `D2` has, the order `[T, F, D1, D2]`
is accepted and the order `[F, T, D1, D2]` of the same members is rejected. -/
theorem isCompatibleWithGroup_order (S : DBCStores) (c T F D1 D2 : Player)
    (hT : CalculateTalentRoles S T = LFG_ROLE_TANK)
    (hF : CalculateTalentRoles S F = LFG_ROLE_TANK ||| LFG_ROLE_DPS)
    (h1 : CalculateTalentRoles S D1 = LFG_ROLE_DPS)
    (h2 : CalculateTalentRoles S D2 = LFG_ROLE_DPS)
    (hc : CalculateTalentRoles S c = LFG_ROLE_DPS)
    (cF : F.cls ≠ c.cls) (c1 : D1.cls ≠ c.cls) (c2 : D2.cls ≠ c.cls) :
    IsCompatibleWithGroup S c (some [some T, some F, some D1, some D2]) = true
    ∧ IsCompatibleWithGroup S c (some [some F, some T, some D1, some D2]) = false
    ∧ List.Perm [some T, some F, some D1, some D2] [some F, some T, some D1, some D2] := by
  have eF : decide (F.cls = c.cls) = false := decide_eq_false cF
  have e1 : decide (D1.cls = c.cls) = false := decide_eq_false c1
  have e2 : decide (D2.cls = c.cls) = false := decide_eq_false c2
  refine ⟨?_, ?_, List.Perm.swap _ _ _⟩
  · simp only [IsCompatibleWithGroup, passCounters, List.foldl_cons, List.foldl_nil,
      memberStep, hT, hF, h1, h2, hc, eF, e1, e2]
    cases decide (T.cls = c.cls) <;> decide
  · simp only [IsCompatibleWithGroup, passCounters, List.foldl_cons, List.foldl_nil,
      memberStep, hT, hF, h1, h2, hc, eF, e1, e2]
    cases decide (T.cls = c.cls) <;> decide

/-- The Warlock against the Tank, the Druid, the Mage and the Hunter of the examples:
accepted in the order Tank first, rejected in the order Druid first (C18 applied). -/
theorem isCompatibleWithGroup_order_witness :
    IsCompatibleWithGroup exStores exWarlock
        (some [some exTank, some exFeral, some exMage, some exHunter]) = true
    ∧ IsCompatibleWithGroup exStores exWarlock
        (some [some exFeral, some exTank, some exMage, some exHunter]) = false :=
  have h := isCompatibleWithGroup_order exStores exWarlock exTank exFeral exMage exHunter
    (by decide) (by decide) (by decide) (by decide) (by decide) (by decide) (by decide)
    (by decide)
  ⟨h.1, h.2.1⟩

/-- C19: a candidate of role Tank|DPS is accepted by `IsCompatibleWithGroup` for every
group argument, null or not, whatever the member references are. -/
theorem isCompatibleWithGroup_hybrid_candidate (S : DBCStores) (c : Player)
    (hc : CalculateTalentRoles S c = LFG_ROLE_TANK ||| LFG_ROLE_DPS)
    (group : Option (List (Option Player))) :
    IsCompatibleWithGroup S c group = true := by
  have hc5 : CalculateTalentRoles S c = 5 := hc
  have e1 : hasRole 5 LFG_ROLE_TANK = true := by decide
  have e2 : hasRole 5 LFG_ROLE_HEALER = false := by decide
  have e4 : hasRole 5 LFG_ROLE_DPS = true := by decide
  cases group with
  | none => rfl
  | some refs =>
    simp only [IsCompatibleWithGroup, hc5, verdict, e1, e2, e4]
    simp

/-- The Druid of the examples is accepted by a group with a Tank, a second Druid of
role Tank|DPS and three DPS (C19 applied). -/
theorem isCompatibleWithGroup_hybrid_candidate_witness :
    IsCompatibleWithGroup exStores exFeral
      (some [some exTank, some exFeral, some exMage, some exHunter, some exRogue]) = true :=
  isCompatibleWithGroup_hybrid_candidate exStores exFeral (by decide) _

/-- C20: `GetHighestTalentTree` returns 0, 1 or 2, and `CalculateTalentRoles` is
never `LFG_ROLE_NONE`: it is Tank, Healer, DPS or Tank|DPS, the last only for a Druid,
and a role with the Healer bit is Healer alone. -/
theorem calculateTalentRoles_ne_none (S : DBCStores) (p : Player) :
    (GetHighestTalentTree S p = 0 ∨ GetHighestTalentTree S p = 1
      ∨ GetHighestTalentTree S p = 2)
    ∧ CalculateTalentRoles S p ≠ LFG_ROLE_NONE
    ∧ (CalculateTalentRoles S p = LFG_ROLE_TANK ∨ CalculateTalentRoles S p = LFG_ROLE_HEALER
      ∨ CalculateTalentRoles S p = LFG_ROLE_DPS
      ∨ CalculateTalentRoles S p = LFG_ROLE_TANK ||| LFG_ROLE_DPS)
    ∧ (CalculateTalentRoles S p = LFG_ROLE_TANK ||| LFG_ROLE_DPS →
        p.cls = Classes.CLASS_DRUID)
    ∧ (hasRole (CalculateTalentRoles S p) LFG_ROLE_HEALER = true →
        CalculateTalentRoles S p = LFG_ROLE_HEALER) := by
  have htab : GetHighestTalentTree S p = 0 ∨ GetHighestTalentTree S p = 1
      ∨ GetHighestTalentTree S p = 2 := by
    unfold GetHighestTalentTree
    split_ifs
    · rw [highestTabLoop_fst]
      split_ifs <;> simp
    · cases p.cls <;> simp [defaultTab]
  have hval : CalculateTalentRoles S p = LFG_ROLE_TANK
      ∨ CalculateTalentRoles S p = LFG_ROLE_HEALER
      ∨ CalculateTalentRoles S p = LFG_ROLE_DPS
      ∨ CalculateTalentRoles S p = LFG_ROLE_TANK ||| LFG_ROLE_DPS := by
    unfold CalculateTalentRoles
    rcases htab with h | h | h <;> rw [h] <;> cases p.cls <;> decide
  refine ⟨htab, ?_, hval, hybrid_is_druid S p, ?_⟩
  · rcases hval with h | h | h | h <;> rw [h] <;> decide
  · intro hh
    rcases hval with h | h | h | h <;> rw [h] at hh ⊢ <;>
      first | rfl | exact absurd hh (by decide)

/-- The Druid of the examples: its role Tank|DPS comes with the class Druid (C20
applied). -/
theorem calculateTalentRoles_ne_none_witness :
    exFeral.cls = Classes.CLASS_DRUID :=
  (calculateTalentRoles_ne_none exStores exFeral).2.2.2.1 (by decide)

/-! ## The shared state: lemmas on the group store calls -/

theorem player_updatePlayer_self (w : World) (i : Nat) (f : Player → Player) :
    (w.updatePlayer i f).player i = (w.player i).map f := by
  simp only [World.updatePlayer, World.player, List.getD_eq_getElem?_getD,
    List.getElem?_modify_eq]
  cases w.players[i]? <;> rfl

theorem player_updatePlayer_ne (w : World) {i j : Nat} (f : Player → Player) (h : i ≠ j) :
    (w.updatePlayer i f).player j = w.player j := by
  simp only [World.updatePlayer, World.player, List.getD_eq_getElem?_getD,
    List.getElem?_modify_ne _ _ h]

theorem player_restrictedLeave_ne (E : Env) (w : World) {i j : Nat} (h : i ≠ j) :
    (w.restrictedLeave E i).player j = w.player j :=
  player_updatePlayer_ne w _ h

theorem createGroup_fail (E : Env) (w : World) (i : Nat)
    (h : w.createOutcomes.headD true = false) :
    w.CreateGroup E i = ({ w with createOutcomes := w.createOutcomes.tail }, false) := by
  simp only [World.CreateGroup, h]
  split <;> simp

theorem createGroup_ok (E : Env) (w : World) (i : Nat) (p : Player)
    (hp : w.player i = some p) (h : w.createOutcomes.headD true = true) :
    w.CreateGroup E i =
      (({ w with createOutcomes := w.createOutcomes.tail,
                 groups := w.groups ++ [{ leaderGuid := p.guid, members := [i],
                                          maxSize := E.MAXGROUPSIZE }] } : World).updatePlayer i
          (fun (q : Player) =>
            if q.group.isNone then { q with group := some w.groups.length } else q), true) := by
  have hp0 : ({ w with createOutcomes := w.createOutcomes.tail } : World).player i = some p := hp
  simp only [World.CreateGroup, h, hp0, if_true]

theorem createGroup_fst (E : Env) (w : World) (i : Nat) :
    (w.CreateGroup E i).1.addOutcomes = w.addOutcomes
    ∧ ((w.CreateGroup E i).2 = false → (w.CreateGroup E i).1.groups = w.groups
        ∧ (w.CreateGroup E i).1.players = w.players)
    ∧ (w.CreateGroup E i).1.groups.length ≤ w.groups.length + 1 := by
  simp only [World.CreateGroup]
  split
  · simp
  · split <;> simp [World.updatePlayer]

theorem addMember_fst (w : World) (gi m : Nat) :
    (w.AddMember gi m).1.addOutcomes = w.addOutcomes.tail
    ∧ (w.AddMember gi m).1.createOutcomes = w.createOutcomes
    ∧ (w.AddMember gi m).1.groups.length = w.groups.length
    ∧ ((w.AddMember gi m).2 = false → (w.AddMember gi m).1.groups = w.groups
        ∧ (w.AddMember gi m).1.players = w.players) := by
  simp only [World.AddMember]
  split <;> simp [World.updatePlayer]

theorem headD_of_all_true (l : List Bool) (h : ∀ b ∈ l, b = true) : l.headD true = true := by
  cases l with
  | nil => rfl
  | cons a t => exact h a (List.mem_cons_self _ _)

/-! ## `AttemptJoin`: one step of the scan -/

theorem joinLoop_skip (E : Env) (me j : Nat) (rest : List Nat) (w : World) (_player : Player)
    (hme : w.player me = some _player)
    (h : ∀ q, w.player j = some q → j ≠ me → joinFilter E _player q = false) :
    joinLoop E me (j :: rest) w = joinLoop E me rest w := by
  cases hj : w.player j with
  | none => simp only [joinLoop, hj]
  | some q =>
    by_cases hjm : j = me
    · simp only [joinLoop, hj, hme, hjm, beq_self_eq_true, Bool.true_or, if_true]
    · have hf := h q hj hjm
      simp only [joinLoop, hj, hme]
      by_cases c1 : (j == me || q.team != _player.team) = true
      · rw [if_pos c1]
      · rw [if_neg c1]
        by_cases c2 : (!q.inWorld || q.offline) = true
        · rw [if_pos c2]
        · rw [if_neg c2]
          by_cases c3 : (!q.LookingForGroup_auto_add) = true
          · rw [if_pos c3]
          · rw [if_neg c3]
            by_cases c4 : (!E.canAutoJoin q.m_lookingForGroup.more
                || !_player.m_lookingForGroup.HaveInSlot q.m_lookingForGroup.more) = true
            · rw [if_pos c4]
            · exfalso
              simp only [Bool.or_eq_true, not_or, Bool.not_eq_true, bne_eq_false_iff_eq,
                Bool.not_eq_false', Bool.not_eq_true'] at c1 c2 c3 c4
              simp [joinFilter, c1, c2, c3, c4] at hf

theorem joinLoop_pass (E : Env) (me i : Nat) (rest : List Nat) (w : World)
    (_player plr : Player)
    (hme : w.player me = some _player) (hplr : w.player i = some plr) (hne : i ≠ me)
    (hf : joinFilter E _player plr = true) (hg : plr.group = none)
    (hc : IsCompatibleWithPlayer E.S _player plr = true) :
    joinLoop E me (i :: rest) w =
      if !(w.CreateGroup E i).2 then joinLoop E me rest (w.CreateGroup E i).1
      else
        match ((w.CreateGroup E i).1.player i).bind (fun q => q.group) with
        | none => (w.CreateGroup E i).1
        | some gi =>
          if ((w.CreateGroup E i).1.AddMember gi me).2 then
            ((w.CreateGroup E i).1.AddMember gi me).1.restrictedLeave E me
          else
            joinLoop E me rest
              (((w.CreateGroup E i).1.AddMember gi me).1.restrictedLeave E i) := by
  simp only [joinFilter, Bool.and_eq_true, beq_iff_eq, Bool.not_eq_true'] at hf
  obtain ⟨⟨⟨⟨⟨f1, f2⟩, f3⟩, f4⟩, f5⟩, f6⟩ := hf
  have hbeq : (i == me) = false := beq_eq_false_iff_ne.mpr hne
  simp only [joinLoop, hplr, hme, hbeq, f1, f2, f3, f4, f5, f6, hg, hc, bne_self_eq_false,
    Bool.or_self, Bool.false_eq_true, if_false, Bool.not_true, Bool.not_false,
    Option.isNone_none, if_true, Bool.false_or]

theorem createGroup_fresh (E : Env) (w : World) (i : Nat) (plr : Player)
    (hplr : w.player i = some plr) (hg : plr.group = none)
    (hok : w.createOutcomes.headD true = true) :
    (w.CreateGroup E i).2 = true
    ∧ (w.CreateGroup E i).1.groups
        = w.groups ++ [{ leaderGuid := plr.guid, members := [i], maxSize := E.MAXGROUPSIZE }]
    ∧ (w.CreateGroup E i).1.player i = some { plr with group := some w.groups.length }
    ∧ (∀ j, i ≠ j → (w.CreateGroup E i).1.player j = w.player j)
    ∧ (w.CreateGroup E i).1.addOutcomes = w.addOutcomes
    ∧ (w.CreateGroup E i).1.createOutcomes = w.createOutcomes.tail := by
  rw [createGroup_ok E w i plr hplr hok]
  refine ⟨rfl, rfl, ?_, ?_, rfl, rfl⟩
  · dsimp only
    rw [player_updatePlayer_self]
    simp only [World.player] at hplr ⊢
    rw [hplr]
    simp only [Option.map_some', hg, Option.isNone_none, if_true]
  · intro j hj
    dsimp only
    rw [player_updatePlayer_ne _ _ hj]
    rfl

theorem addMember_ok (w : World) (gi m : Nat)
    (hgi : gi < w.groups.length) (hfull : (w.groups.getD gi default).IsFull = false)
    (hok : w.addOutcomes.headD true = true) :
    (w.AddMember gi m).2 = true
    ∧ (w.AddMember gi m).1.groups
        = w.groups.set gi { (w.groups.getD gi default) with
            members := (w.groups.getD gi default).members ++ [m] }
    ∧ (w.AddMember gi m).1.player m
        = (w.player m).map (fun (q : Player) => { q with group := some gi })
    ∧ (∀ j, m ≠ j → (w.AddMember gi m).1.player j = w.player j)
    ∧ (w.AddMember gi m).1.addOutcomes = w.addOutcomes.tail
    ∧ (w.AddMember gi m).1.createOutcomes = w.createOutcomes := by
  have hcond : (w.addOutcomes.headD true && !(w.groups.getD gi default).IsFull
      && decide (gi < w.groups.length)) = true := by
    rw [hok, hfull, decide_eq_true hgi]; rfl
  simp only [World.AddMember, hcond, if_true]
  refine ⟨trivial, rfl, ?_, ?_, rfl, rfl⟩
  · rw [player_updatePlayer_self]; rfl
  · intro j hj
    rw [player_updatePlayer_ne _ _ hj]; rfl

theorem player_lt_length (w : World) (i : Nat) (p : Player) (h : w.player i = some p) :
    i < w.players.length := by
  by_contra hge
  simp only [World.player, List.getD_eq_getElem?_getD,
    List.getElem?_eq_none (Nat.le_of_not_lt hge)] at h
  cases h

theorem range_split (i n : Nat) (h : i < n) :
    List.range n = List.range i ++ i :: List.range' (i + 1) (n - (i + 1)) := by
  have h1 : n = (n - (i + 1) + 1) + i := by omega
  have h2 : List.range' 0 i ++ List.range' (0 + i) (n - (i + 1) + 1)
      = List.range' 0 ((n - (i + 1) + 1) + i) := List.range'_append_1 0 i _
  rw [List.range_eq_range', List.range_eq_range']
  conv => lhs; rw [h1]
  rw [← h2, Nat.zero_add, List.range'_succ]

theorem set_concat_length {α : Type} (l : List α) (a b : α) :
    (l ++ [a]).set l.length b = l ++ [b] := by
  induction l with
  | nil => rfl
  | cons x t ih => simp only [List.cons_append, List.length_cons, List.set_cons_succ, ih]

theorem joinLoop_skip_pre (E : Env) (me : Nat) (w : World) (_player : Player)
    (hme : w.player me = some _player) :
    ∀ (pre l : List Nat),
      (∀ j ∈ pre, ∀ q, w.player j = some q → j ≠ me → joinFilter E _player q = false) →
      joinLoop E me (pre ++ l) w = joinLoop E me l w := by
  intro pre
  induction pre with
  | nil => intro l _; rfl
  | cons j t ih =>
    intro l h
    rw [List.cons_append, joinLoop_skip E me j (t ++ l) w _player hme
      (h j (List.mem_cons_self _ _))]
    exact ih l (fun k hk => h k (List.mem_cons_of_mem _ hk))

theorem joinLoop_fresh (E : Env) (me i : Nat) (rest : List Nat) (w : World)
    (_player plr : Player)
    (hme : w.player me = some _player) (hplr : w.player i = some plr) (hne : i ≠ me)
    (hf : joinFilter E _player plr = true) (hg : plr.group = none)
    (hc : IsCompatibleWithPlayer E.S _player plr = true)
    (hcreate : w.createOutcomes.headD true = true)
    (hadd : w.addOutcomes.headD true = true)
    (hmax : 2 ≤ E.MAXGROUPSIZE) :
    (joinLoop E me (i :: rest) w).groups
        = w.groups ++ [{ leaderGuid := plr.guid, members := [i, me],
                         maxSize := E.MAXGROUPSIZE }]
    ∧ (joinLoop E me (i :: rest) w).player i
        = some { plr with group := some w.groups.length }
    ∧ (joinLoop E me (i :: rest) w).player me
        = some { _player with
            group := some w.groups.length,
            inLFGChannel :=
              if E.CONFIG_BOOL_CHANNEL_RESTRICTED_LFG && _player.security == E.SEC_PLAYER
              then false else _player.inLFGChannel }
    ∧ (∀ j, j ≠ i → j ≠ me → (joinLoop E me (i :: rest) w).player j = w.player j) := by
  obtain ⟨k1, k2, k3, k4, k5, -⟩ := createGroup_fresh E w i plr hplr hg hcreate
  have hbind : ((w.CreateGroup E i).1.player i).bind (fun q => q.group)
      = some w.groups.length := by
    rw [k3]; rfl
  have hget : (w.CreateGroup E i).1.groups.getD w.groups.length default
      = { leaderGuid := plr.guid, members := [i], maxSize := E.MAXGROUPSIZE } := by
    rw [k2, List.getD_eq_getElem?_getD, List.getElem?_concat_length]; rfl
  have hgi : w.groups.length < (w.CreateGroup E i).1.groups.length := by
    rw [k2]; simp
  have hfull : ((w.CreateGroup E i).1.groups.getD w.groups.length default).IsFull = false := by
    rw [hget]
    simp only [Group.IsFull, List.length_singleton, decide_eq_false_iff_not]
    omega
  have hok : (w.CreateGroup E i).1.addOutcomes.headD true = true := by rw [k5]; exact hadd
  obtain ⟨a1, a2, a3, a4, -, -⟩ :=
    addMember_ok (w.CreateGroup E i).1 w.groups.length me hgi hfull hok
  have hloop : joinLoop E me (i :: rest) w
      = ((w.CreateGroup E i).1.AddMember w.groups.length me).1.restrictedLeave E me := by
    rw [joinLoop_pass E me i rest w _player plr hme hplr hne hf hg hc]
    simp only [k1, hbind, a1, Bool.not_true, Bool.false_eq_true, if_false, if_true]
  rw [hloop]
  refine ⟨?_, ?_, ?_, ?_⟩
  · show ((w.CreateGroup E i).1.AddMember w.groups.length me).1.groups = _
    rw [a2, hget, k2, set_concat_length]
    rfl
  · rw [player_restrictedLeave_ne E _ (Ne.symm hne), a4 i (Ne.symm hne), k3]
  · unfold World.restrictedLeave
    rw [player_updatePlayer_self, a3, k4 me hne, hme]
    simp only [Option.map_some']
    generalize (E.CONFIG_BOOL_CHANNEL_RESTRICTED_LFG && _player.security == E.SEC_PLAYER) = b
    cases b <;> rfl
  · intro j hji hjm
    rw [player_restrictedLeave_ne E _ (Ne.symm hjm), a4 j (Ne.symm hjm), k4 j (Ne.symm hji)]

/-- C13: a seeker without a group whose slots are auto-joinable, a first candidate
passing the filters that has no group and is pairwise compatible, a successful creation
and a successful add: after `AttemptJoin` the store has one more group, led by the
candidate and holding the candidate and the seeker; both refer to it; nothing else of
them changed except that the seeker has left the LFG channel when the restriction is
configured and its security level is `SEC_PLAYER`; no other player changed. -/
theorem attemptJoin_fresh_group (E : Env) (me i : Nat) (w : World) (_player plr : Player)
    (hme : w.player me = some _player)
    (hslots : _player.m_lookingForGroup.canAutoJoin E = true)
    (hnog : _player.group = none)
    (hplr : w.player i = some plr) (hne : i ≠ me)
    (hfirst : ∀ j, j < i → ∀ q, w.player j = some q → j ≠ me →
      joinFilter E _player q = false)
    (hf : joinFilter E _player plr = true) (hg : plr.group = none)
    (hc : IsCompatibleWithPlayer E.S _player plr = true)
    (hcreate : w.createOutcomes.headD true = true)
    (hadd : w.addOutcomes.headD true = true)
    (hmax : 2 ≤ E.MAXGROUPSIZE) :
    (AttemptJoin E me w).groups
        = w.groups ++ [{ leaderGuid := plr.guid, members := [i, me],
                         maxSize := E.MAXGROUPSIZE }]
    ∧ (AttemptJoin E me w).player i = some { plr with group := some w.groups.length }
    ∧ (AttemptJoin E me w).player me
        = some { _player with
            group := some w.groups.length,
            inLFGChannel :=
              if E.CONFIG_BOOL_CHANNEL_RESTRICTED_LFG && _player.security == E.SEC_PLAYER
              then false else _player.inLFGChannel }
    ∧ (∀ j, j ≠ i → j ≠ me → (AttemptJoin E me w).player j = w.player j) := by
  have hlt := player_lt_length w i plr hplr
  have hrun : AttemptJoin E me w
      = joinLoop E me (i :: List.range' (i + 1) (w.players.length - (i + 1))) w := by
    simp only [AttemptJoin, hme, hslots, hnog, Option.isSome_none, Bool.not_true,
      Bool.or_self, Bool.false_eq_true, if_false]
    rw [range_split i _ hlt]
    exact joinLoop_skip_pre E me w _player hme _ _
      (fun j hj => hfirst j (List.mem_range.mp hj))
  rw [hrun]
  exact joinLoop_fresh E me i _ w _player plr hme hplr hne hf hg hc hcreate hadd hmax

/-- The tank-tree Warrior with slot (5, 1) and auto-join on, and the Priest with the
matching "more" slot and auto-add on (C13 applied): the new group is led by the Priest
and holds the Priest and the Warrior. -/
theorem attemptJoin_fresh_group_witness :
    (AttemptJoin exEnv 0 exJoinWorld).groups
      = exJoinWorld.groups ++ [{ leaderGuid := exJoinCand1.guid, members := [1, 0],
                                 maxSize := exEnv.MAXGROUPSIZE }] :=
  (attemptJoin_fresh_group exEnv 0 1 exJoinWorld exJoinSeeker exJoinCand1 rfl (by decide)
    (by decide) rfl (by decide)
    (by
      intro j hj q hq hjm
      have h0 : j = 0 := by omega
      exact absurd h0 hjm)
    (by decide) (by decide) (by decide) (by decide) (by decide) (by decide)).1

/-! ## Group creation in the two scans -/

theorem addMoreLoop_pass (E : Env) (me i : Nat) (rest : List Nat) (w : World)
    (_player plr : Player)
    (hme : w.player me = some _player) (hplr : w.player i = some plr) (hne : i ≠ me)
    (hf : addMoreFilter _player plr = true)
    (hc : IsCompatibleWithPlayer E.S plr _player = true) :
    addMoreLoop E me none (i :: rest) w =
      if !(w.CreateGroup E me).2 then (w.CreateGroup E me).1
      else
        match ((w.CreateGroup E me).1.player me).bind (fun q => q.group) with
        | none => (w.CreateGroup E me).1
        | some gi =>
          if !((w.CreateGroup E me).1.AddMember gi i).2 then
            ((w.CreateGroup E me).1.AddMember gi i).1.restrictedLeave E me
          else if ((((w.CreateGroup E me).1.AddMember gi i).1.restrictedLeave E i).groups.getD
              gi default).IsFull then
            (((w.CreateGroup E me).1.AddMember gi i).1.restrictedLeave E i).restrictedLeave E me
          else
            addMoreLoop E me none rest
              (((w.CreateGroup E me).1.AddMember gi i).1.restrictedLeave E i) := by
  simp only [addMoreFilter, Bool.and_eq_true, beq_iff_eq, Bool.not_eq_true',
    Option.isNone_iff_eq_none] at hf
  obtain ⟨⟨⟨⟨⟨f1, f2⟩, f3⟩, f4⟩, f5⟩, f6⟩ := hf
  have hbeq : (i == me) = false := beq_eq_false_iff_ne.mpr hne
  simp only [addMoreLoop, hplr, hme, hbeq, f1, f2, f3, f4, f5, f6, hc, bne_self_eq_false,
    Bool.or_self, Bool.false_eq_true, if_false, Bool.not_true, Bool.not_false,
    Option.isNone_none, Option.isSome_none, if_true, Bool.false_or]

theorem addMoreLoop_groups_length (E : Env) (me gi : Nat) :
    ∀ (l : List Nat) (w : World),
      (addMoreLoop E me (some gi) l w).groups.length = w.groups.length := by
  intro l
  induction l with
  | nil => intro w; rfl
  | cons i rest ih =>
    intro w
    rw [addMoreLoop]
    split
    · simp only [Option.isNone_some, Bool.false_eq_true, if_false, Bool.not_true]
      split_ifs
      · exact ih w
      · exact ih w
      · exact ih w
      · exact ih w
      · exact ih w
      · split
        · rfl
        · rename_i g2 _
          have hlen := (addMember_fst w g2 i).2.2.1
          split_ifs
          · exact hlen
          · exact hlen
          · rw [ih]; exact hlen
    · exact ih w

theorem joinLoop_groups_le (E : Env) (me : Nat) (hmax : 2 ≤ E.MAXGROUPSIZE) :
    ∀ (l : List Nat) (w : World), (∀ b ∈ w.addOutcomes, b = true) →
      (joinLoop E me l w).groups.length ≤ w.groups.length + 1 := by
  intro l
  induction l with
  | nil => intro w _; exact Nat.le_succ _
  | cons i rest ih =>
    intro w hall
    rw [joinLoop]
    split
    · rename_i plr _player hplr hme
      split_ifs
      all_goals first | exact ih w hall | skip
      dsimp only
      cases hg : plr.group with
      | none =>
        simp only [Option.isNone_none, if_true, Bool.false_eq_true, if_false]
        have hfst := createGroup_fst E w i
        split_ifs with hc hcr
        · exact ih w hall
        · have hfalse : (w.CreateGroup E i).2 = false := by simpa using hcr
          have h1 := ih (w.CreateGroup E i).1 (by rw [hfst.1]; exact hall)
          rw [(hfst.2.1 hfalse).1] at h1
          exact h1
        · have hok : (w.CreateGroup E i).2 = true := by simpa using hcr
          have hcreate : w.createOutcomes.headD true = true := by
            cases hcd : w.createOutcomes.headD true
            · rw [createGroup_fail E w i hcd] at hok
              cases hok
            · rfl
          obtain ⟨-, k2, k3, -, k5, -⟩ := createGroup_fresh E w i plr hplr hg hcreate
          split
          · exact hfst.2.2
          · rename_i gi heq
            rw [k3] at heq
            have hgi : w.groups.length = gi := by
              simpa using heq
            subst hgi
            have hgetD : (w.CreateGroup E i).1.groups.getD w.groups.length default
                = { leaderGuid := plr.guid, members := [i], maxSize := E.MAXGROUPSIZE } := by
              rw [k2, List.getD_eq_getElem?_getD, List.getElem?_concat_length]; rfl
            have hfull : ((w.CreateGroup E i).1.groups.getD w.groups.length default).IsFull
                = false := by
              rw [hgetD]
              simp only [Group.IsFull, List.length_singleton, decide_eq_false_iff_not]
              omega
            obtain ⟨a1, -⟩ := addMember_ok (w.CreateGroup E i).1 w.groups.length me
              (by rw [k2]; simp) hfull (by rw [k5]; exact headD_of_all_true _ hall)
            rw [if_pos a1]
            show ((w.CreateGroup E i).1.AddMember w.groups.length me).1.groups.length ≤ _
            rw [(addMember_fst _ _ _).2.2.1]
            exact hfst.2.2
      | some g0 =>
        simp only [Option.isNone_some, Bool.false_eq_true, if_false, Bool.not_true]
        split_ifs
        · exact ih w hall
        · exact ih w hall
        · split
          · exact Nat.le_succ _
          · rename_i gi heq
            have hadd := addMember_fst w gi me
            split_ifs
            · show (w.AddMember gi me).1.groups.length ≤ _
              rw [hadd.2.2.1]
              exact Nat.le_succ _
            · have h1 := ih ((w.AddMember gi me).1.restrictedLeave E i)
                (by
                  intro b hb
                  have hb2 : b ∈ (w.AddMember gi me).1.addOutcomes := hb
                  rw [hadd.1] at hb2
                  exact hall b (List.mem_of_mem_tail hb2))
              have h2 : ((w.AddMember gi me).1.restrictedLeave E i).groups.length
                  = w.groups.length := hadd.2.2.1
              rw [h2] at h1
              exact h1
    · exact ih w hall

/-- Where the number of creations is bounded: when no add fails on a group that is not
full, one call of `AttemptJoin` leaves at most one more group in the store than before;
one call of `AttemptAddMore` for an advertiser that has a group when the call starts
creates no group. -/
theorem group_creation_bound (E : Env) (me : Nat) (w : World) :
    (2 ≤ E.MAXGROUPSIZE → (∀ b ∈ w.addOutcomes, b = true) →
        (AttemptJoin E me w).groups.length ≤ w.groups.length + 1)
    ∧ (∀ (p : Player) (gi : Nat), w.player me = some p → p.group = some gi →
        (AttemptAddMore E me w).groups.length = w.groups.length) := by
  refine ⟨?_, ?_⟩
  · intro hmax hall
    unfold AttemptJoin
    split
    · exact Nat.le_succ _
    · split_ifs
      · exact Nat.le_succ _
      · exact joinLoop_groups_le E me hmax _ w hall
  · intro p gi hp hg
    simp only [AttemptAddMore, hp, hg]
    split_ifs
    · rfl
    · rfl
    · exact addMoreLoop_groups_length E me gi _ w

/-- C11 at the advertiser of role Tank followed by two Healer seekers, nobody in a
group and every call of the group store succeeding: the store is empty before
`AttemptAddMore` and holds two groups after it.  The scan over the first two registry
positions creates the first group and leaves the advertiser in it; the scan goes on at
the third position with the group pointer it read before the loop, which is null, and
creates the second group while the advertiser has one. -/
theorem attemptAddMore_creates_twice :
    exWorld.groups.length = 0
    ∧ (exWorld.player 0).bind (fun q => q.group) = none
    ∧ exWorld.createOutcomes = [] ∧ exWorld.addOutcomes = []
    ∧ (addMoreLoop exEnv 0 none [0, 1] exWorld).groups.length = 1
    ∧ ((addMoreLoop exEnv 0 none [0, 1] exWorld).player 0).bind (fun q => q.group) = some 0
    ∧ AttemptAddMore exEnv 0 exWorld
        = addMoreLoop exEnv 0 none [2] (addMoreLoop exEnv 0 none [0, 1] exWorld)
    ∧ (AttemptAddMore exEnv 0 exWorld).groups.length = 2 := by
  refine ⟨by decide, by decide, by decide, by decide, by decide, by decide, rfl, by decide⟩

/-- C12: when `Group::Create` fails for a candidate that passed the filters and the
pairwise check, `AttemptJoin` goes on with the candidates after it, in a state whose
players and groups are those before the call; `AttemptAddMore` returns at once with
that state, whatever candidates are left.  In the example a later candidate absorbs
the seeker after the failed creation. -/
theorem creation_failure_asymmetry (E : Env) (me i : Nat) (rest : List Nat) (w : World)
    (_player plr : Player)
    (hme : w.player me = some _player) (hplr : w.player i = some plr) (hne : i ≠ me)
    (hfail : w.createOutcomes.headD true = false) :
    (joinFilter E _player plr = true → plr.group = none →
        IsCompatibleWithPlayer E.S _player plr = true →
        joinLoop E me (i :: rest) w
          = joinLoop E me rest { w with createOutcomes := w.createOutcomes.tail })
    ∧ (addMoreFilter _player plr = true → IsCompatibleWithPlayer E.S plr _player = true →
        addMoreLoop E me none (i :: rest) w
          = { w with createOutcomes := w.createOutcomes.tail })
    ∧ (AttemptJoin exEnv 0 exJoinWorldCreateFails).groups
        = [{ leaderGuid := exJoinCand2.guid, members := [2, 0] }]
    ∧ (((AttemptJoin exEnv 0 exJoinWorldCreateFails).player 0).bind (fun q => q.group))
        = some 0 := by
  refine ⟨?_, ?_, by rfl, by decide⟩
  · intro hf hg hc
    rw [joinLoop_pass E me i rest w _player plr hme hplr hne hf hg hc,
      createGroup_fail E w i hfail]
    rfl
  · intro hf hc
    rw [addMoreLoop_pass E me i rest w _player plr hme hplr hne hf hc,
      createGroup_fail E w me hfail]
    rfl

/-- The two example registries with a failing first creation (C12 applied): the scan
of `AttemptJoin` goes on with the second advertiser, `AttemptAddMore` ends. -/
theorem creation_failure_asymmetry_witness :
    joinLoop exEnv 0 [1, 2] exJoinWorldCreateFails
        = joinLoop exEnv 0 [2]
            { exJoinWorldCreateFails with
              createOutcomes := exJoinWorldCreateFails.createOutcomes.tail }
    ∧ addMoreLoop exEnv 0 none [1, 2] exWorldCreateFails
        = { exWorldCreateFails with
            createOutcomes := exWorldCreateFails.createOutcomes.tail } :=
  ⟨(creation_failure_asymmetry exEnv 0 1 [2] exJoinWorldCreateFails exJoinSeeker exJoinCand1
      rfl rfl (by decide) rfl).1 (by decide) (by decide) (by decide),
   (creation_failure_asymmetry exEnv 0 1 [2] exWorldCreateFails exAdvertiser exSeeker1
      rfl rfl (by decide) rfl).2.1 (by decide) (by decide)⟩

/-! ## The listing response and the set-slot handler -/

theorem foldl_append_bytes {β : Type} (f : β → List Nat) :
    ∀ (l : List β) (d : List Nat), l.foldl (fun d j => d ++ f j) d = d ++ l.flatMap f := by
  intro l
  induction l with
  | nil => intro d; simp
  | cons a t ih => intro d; simp [ih, List.append_assoc]

theorem putU32_append_left (a b : List Nat) (pos v : Nat) :
    putU32 (a ++ b) (a.length + pos) v = a ++ putU32 b pos v := by
  simp only [putU32, List.take_append, Nat.add_assoc, List.drop_append, List.append_assoc]

theorem listMembersLoop_append (P : PacketEnv) (g : Nat) (a : List Nat) :
    ∀ (refs : List (Option Player)) (x : List Nat) (c : Nat),
      listMembersLoop P g refs (a ++ x, c)
        = (a ++ (listMembersLoop P g refs (x, c)).1, (listMembersLoop P g refs (x, c)).2) := by
  intro refs
  induction refs with
  | nil => intro x c; rfl
  | cons r t ih =>
    intro x c
    simp only [listMembersLoop, List.foldl_cons] at ih ⊢
    cases r with
    | none => exact ih x c
    | some m =>
      dsimp only
      split_ifs
      · rw [List.append_assoc, List.append_assoc, ← List.append_assoc x]
        exact ih _ _
      · exact ih x c

theorem listMembersLoop_length (P : PacketEnv) (g : Nat) :
    ∀ (refs : List (Option Player)) (x : List Nat) (c : Nat),
      x.length ≤ (listMembersLoop P g refs (x, c)).1.length := by
  intro refs
  induction refs with
  | nil => intro x c; exact Nat.le_refl _
  | cons r t ih =>
    intro x c
    simp only [listMembersLoop, List.foldl_cons] at ih ⊢
    cases r with
    | none => exact ih x c
    | some m =>
      dsimp only
      split_ifs
      · refine Nat.le_trans ?_ (ih _ _)
        simp only [List.length_append]; omega
      · exact ih x c

theorem record_tail (P : PacketEnv) (g : Nat) (refs : List (Option Player))
    (data y : List Nat) (hy : 4 ≤ y.length) :
    putU32 (listMembersLoop P g refs (data ++ y, 0)).1 ((data ++ y).length - 4)
        (listMembersLoop P g refs (data ++ y, 0)).2
      = data ++ putU32 (listMembersLoop P g refs (y, 0)).1 (y.length - 4)
          (listMembersLoop P g refs (y, 0)).2 := by
  rw [listMembersLoop_append]
  have hlen : (data ++ y).length - 4 = data.length + (y.length - 4) := by
    simp only [List.length_append]; omega
  rw [hlen]
  exact putU32_append_left _ _ _ _

theorem appendRecord_append (P : PacketEnv) (w : World) (entry type : Nat) (data : List Nat)
    (plr : Player) :
    appendRecord P w entry type data plr = data ++ appendRecord P w entry type [] plr := by
  simp only [appendRecord, foldl_append_bytes, List.nil_append]
  cases plr.group with
  | none =>
    dsimp only
    split_ifs <;> simp only [List.append_assoc]
  | some gi =>
    dsimp only
    split_ifs
    · simp only [List.append_assoc]
      exact record_tail P _ _ data _ (by simp only [List.length_append, u32le, List.length_cons, List.length_nil]; omega)
    · simp only [List.append_assoc]
      exact record_tail P _ _ data _ (by simp only [List.length_append, u32le, List.length_cons, List.length_nil]; omega)

theorem filter_chain {α : Type} (b0 b1 b2 b3 b4 g : Bool) (st X : α) :
    (if (!b0) = true then st
      else if (!b1 || b2) = true then st
      else if (!b3 && !b4) = true then st
      else if g = true then st
      else X)
      = if (b0 && b1 && !b2 && (b3 || b4) && !g) = true then X else st := by
  cases b0 <;> cases b1 <;> cases b2 <;> cases b3 <;> cases b4 <;> cases g <;> rfl

theorem listQueryStep_some (P : PacketEnv) (w : World) (_player : Player) (entry type : Nat)
    (st : List Nat × Nat × Nat) (plr : Player) :
    listQueryStep P w _player entry type st (some plr)
      = if listMatch w _player entry type plr then
          (if inc32 st.2.2 > 50 then (st.1, st.2.1, inc32 st.2.2)
           else (appendRecord P w entry type st.1 plr, inc32 st.2.1, inc32 st.2.2))
        else st := by
  have hcond : listMatch w _player entry type plr
      = (plr.team == _player.team && plr.inWorld && !plr.offline
          && (plr.m_lookingForGroup.HaveInSlot { entry := entry, type := type }
              || plr.m_lookingForGroup.more.Is entry type)
          && !(match plr.group with
            | some gi =>
              (w.groups.getD gi default).isBattleGroup || (w.groups.getD gi default).IsFull
                || !((w.groups.getD gi default).leaderGuid == plr.guid)
            | none => false)) := by
    unfold listMatch
    cases plr.group with
    | none => rfl
    | some gi =>
      dsimp only
      cases (w.groups.getD gi default).isBattleGroup <;>
        cases (w.groups.getD gi default).IsFull <;>
        cases ((w.groups.getD gi default).leaderGuid == plr.guid) <;> rfl
  rw [hcond]
  simp only [listQueryStep]
  exact filter_chain _ _ _ _ _ _ _ _

theorem listQuery_fold (P : PacketEnv) (w : World) (_player : Player) (entry type : Nat) :
    ∀ (l : List (Option Player)) (data : List Nat) (k : Nat), k + l.length < 4294967296 →
      l.foldl (listQueryStep P w _player entry type) (data, min k 50, k)
        = (data ++ ((l.reduceOption.filter (listMatch w _player entry type)).take
              (50 - k)).flatMap (appendRecord P w entry type []),
            min (k + (l.reduceOption.filter (listMatch w _player entry type)).length) 50,
            k + (l.reduceOption.filter (listMatch w _player entry type)).length) := by
  intro l
  induction l with
  | nil => intro data k _; simp
  | cons r t ih =>
    intro data k hk
    have hk2 : k + t.length < 4294967296 := by
      simp only [List.length_cons] at hk; omega
    have hk3 : k + 1 + t.length < 4294967296 := by
      simp only [List.length_cons] at hk; omega
    rw [List.foldl_cons]
    cases r with
    | none =>
      rw [List.reduceOption_cons_of_none]
      exact ih data k hk2
    | some plr =>
      rw [List.reduceOption_cons_of_some, listQueryStep_some]
      by_cases hm : listMatch w _player entry type plr = true
      · rw [if_pos hm, List.filter_cons_of_pos hm]
        have hinc : inc32 k = k + 1 := by unfold inc32; omega
        dsimp only
        rw [hinc]
        by_cases h50 : k + 1 > 50
        · rw [if_pos h50]
          have e1 : min k 50 = min (k + 1) 50 := by omega
          rw [e1, ih data (k + 1) hk3]
          have z1 : 50 - (k + 1) = 0 := by omega
          have z2 : 50 - k = 0 := by omega
          rw [z1, z2]
          simp only [List.take_zero, List.length_cons]
          refine Prod.ext rfl (Prod.ext ?_ ?_)
          · dsimp only; congr 1; omega
          · dsimp only; omega
        · rw [if_neg h50]
          have e1 : inc32 (min k 50) = min (k + 1) 50 := by unfold inc32; omega
          rw [e1, appendRecord_append, ih _ (k + 1) hk3]
          have z2 : 50 - k = (50 - (k + 1)) + 1 := by omega
          rw [z2, List.take_succ_cons, List.flatMap_cons, List.append_assoc]
          simp only [List.length_cons]
          refine Prod.ext rfl (Prod.ext ?_ ?_)
          · dsimp only; congr 1; omega
          · dsimp only; omega
      · rw [if_neg hm, List.filter_cons_of_neg hm]
        exact ih data k hk2

theorem readU32_u32le (a : List Nat) (v : Nat) (rest : List Nat) :
    readU32 (a ++ u32le v ++ rest) a.length = v % 4294967296 := by
  simp only [readU32, List.append_assoc, List.drop_left, u32le, List.cons_append,
    List.nil_append]
  omega

theorem length_u32le (v : Nat) : (u32le v).length = 4 := rfl

theorem putU32_header (t e d f : Nat) (body : List Nat) :
    putU32 (putU32 (u32le t ++ u32le e ++ u32le 0 ++ u32le 0 ++ body) (4 + 4) d) (4 + 4 + 4) f
      = u32le t ++ u32le e ++ u32le d ++ u32le f ++ body := by
  simp [putU32, u32le]

theorem u32le_mod (v : Nat) : u32le (v % 4294967296) = u32le v := by
  simp only [u32le, List.cons.injEq, and_true]
  refine ⟨?_, ?_, ?_, ?_⟩ <;> omega

theorem listMembersLoop_eq (P : PacketEnv) (g : Nat) :
    ∀ (refs : List (Option Player)) (x : List Nat) (c : Nat),
      (listMembersLoop P g refs (x, c)).1
          = x ++ (refs.reduceOption.filter (fun m => m.guid != g)).flatMap
              (fun m => P.packGuid m.guid ++ u32le m.level)
      ∧ (listMembersLoop P g refs (x, c)).2 % 4294967296
          = (c + (refs.reduceOption.filter (fun m => m.guid != g)).length) % 4294967296 := by
  intro refs
  induction refs with
  | nil => intro x c; simp [listMembersLoop]
  | cons r t ih =>
    intro x c
    simp only [listMembersLoop, List.foldl_cons] at ih ⊢
    cases r with
    | none =>
      rw [List.reduceOption_cons_of_none]
      exact ih x c
    | some m =>
      rw [List.reduceOption_cons_of_some]
      dsimp only
      by_cases hm : (m.guid != g) = true
      · rw [if_pos hm, List.filter_cons, if_pos hm]
        obtain ⟨h1, h2⟩ := ih (x ++ P.packGuid m.guid ++ u32le m.level) (inc32 c)
        refine ⟨?_, ?_⟩
        · rw [h1]; simp only [List.flatMap_cons, List.append_assoc]
        · rw [h2]; simp only [List.length_cons, inc32]; omega
      · rw [if_neg hm, List.filter_cons, if_neg hm]
        exact ih x c

theorem putU32_placeholder (a tail : List Nat) (v : Nat) :
    putU32 (a ++ u32le 0 ++ tail) ((a ++ u32le 0).length - 4) v = a ++ u32le v ++ tail := by
  have hlen : (a ++ u32le 0).length - 4 = a.length + 0 := by
    simp only [List.length_append, length_u32le]; omega
  rw [hlen, List.append_assoc, putU32_append_left, List.append_assoc]
  congr 1

theorem appendRecord_nil (P : PacketEnv) (w : World) (entry type : Nat) (plr : Player) :
    appendRecord P w entry type [] plr = listRecord P w entry type plr := by
  simp only [appendRecord, listRecord, foldl_append_bytes, List.nil_append,
    LookingForGroupSlot.Is, slotWord]
  cases plr.group with
  | none =>
    dsimp only
    split_ifs <;> simp only [List.append_assoc]
  | some gi =>
    dsimp only
    have hloop := listMembersLoop_eq P plr.guid (w.memberRefs gi)
    have key : ∀ d3 : List Nat,
        putU32 (listMembersLoop P plr.guid (w.memberRefs gi) (d3 ++ u32le 0, 0)).1
            ((d3 ++ u32le 0).length - 4)
            (listMembersLoop P plr.guid (w.memberRefs gi) (d3 ++ u32le 0, 0)).2
          = d3 ++ (u32le (otherMembers w gi plr).length
              ++ (otherMembers w gi plr).flatMap
                  (fun m => P.packGuid m.guid ++ u32le m.level)) := by
      intro d3
      obtain ⟨h1, h2⟩ := hloop (d3 ++ u32le 0) 0
      rw [h1, putU32_placeholder, ← u32le_mod, h2, Nat.zero_add, u32le_mod, List.append_assoc]
      rfl
    split_ifs
    · rw [key]; simp only [List.append_assoc]
    · rw [key]

theorem listMatches_length_le (w : World) (_player : Player) (entry type : Nat) :
    (listMatches w _player entry type).length ≤ w.players.length :=
  Nat.le_trans (List.length_filter_le _ _) (List.reduceOption_length_le _)

theorem stringBytes_hi : stringBytes "hi" = [104, 105, 0] := by
  simp only [stringBytes, String.toUTF8, ByteArray.toList]
  rw [ByteArray.toList.loop, if_pos (by decide), ByteArray.toList.loop, if_pos (by decide),
    ByteArray.toList.loop, if_neg (by decide)]
  rfl

theorem stringBytes_empty : stringBytes "" = [0] := by
  simp only [stringBytes, String.toUTF8, ByteArray.toList]
  rw [ByteArray.toList.loop, if_neg (by decide)]
  rfl

/-- The header and the records of the example registry with a group, byte by byte. -/
theorem exListWorld_records :
    some (u32le 1 ++ u32le 5
        ++ u32le (min (listMatches exListWorld exLeader 5 1).length 50)
        ++ u32le (listMatches exListWorld exLeader 5 1).length
        ++ ((listMatches exListWorld exLeader 5 1).take 50).flatMap
            (listRecord exPacketEnv exListWorld 5 1))
      = some [1, 0, 0, 0, 5, 0, 0, 0, 2, 0, 0, 0, 2, 0, 0, 0,
          1, 1, 70, 0, 0, 0, 12, 0, 0, 0, 1,
          5, 0, 0, 1, 0, 0, 0, 1, 0, 0, 0, 1,
          104, 105, 0,
          1, 0, 0, 0, 1, 2, 5, 0, 0, 0,
          1, 4, 5, 0, 0, 0, 0, 0, 0, 0, 0,
          5, 0, 0, 1, 0, 0, 0, 0, 0, 0, 0, 0,
          0,
          0, 0, 0, 0] := by
  have hm : listMatches exListWorld exLeader 5 1 = [exLeader, exListedSeeker] := rfl
  have h1 : listRecord exPacketEnv exListWorld 5 1 exLeader
      = [1, 1, 70, 0, 0, 0, 12, 0, 0, 0, 1, 5, 0, 0, 1, 0, 0, 0, 1, 0, 0, 0, 1]
        ++ stringBytes "hi" ++ [1, 0, 0, 0, 1, 2, 5, 0, 0, 0] := rfl
  have h2 : listRecord exPacketEnv exListWorld 5 1 exListedSeeker
      = [1, 4, 5, 0, 0, 0, 0, 0, 0, 0, 0, 5, 0, 0, 1, 0, 0, 0, 0, 0, 0, 0, 0]
        ++ stringBytes "" ++ [0, 0, 0, 0] := rfl
  rw [hm]
  simp only [List.take, List.flatMap_cons, List.flatMap_nil, h1, h2, stringBytes_hi,
    stringBytes_empty]
  rfl

/-- C14: for a registry of fewer than `2 ^ 32` entries the payload is the echoed query,
`displayed = min(found, 50)` and `found` at byte offsets 8 and 12, and then, for each of
the first 50 matching players in iteration order and for no other player, its record:
packed guid, level, zone, flag byte, the "more" word and two words `0x1000000` or one
word per slot, the comment, the count of the other group members and their packed guids
and levels.  `found` is the number of matching players.  With 60 matching players the
two fields are 50 and 60. -/
theorem sendLFGListQueryResponse_counts (P : PacketEnv) (w : World) (me type entry : Nat)
    (_player : Player) (hme : w.player me = some _player)
    (hlen : w.players.length < 4294967296) :
    SendLFGListQueryResponse P w me type entry
        = some (u32le type ++ u32le entry
            ++ u32le (min (listMatches w _player entry type).length 50)
            ++ u32le (listMatches w _player entry type).length
            ++ ((listMatches w _player entry type).take 50).flatMap
                (listRecord P w entry type))
    ∧ (SendLFGListQueryResponse P w me type entry).map
          (fun payload => (readU32 payload 8, readU32 payload 12))
        = some (min (listMatches w _player entry type).length 50,
            (listMatches w _player entry type).length)
    ∧ ((listMatches w _player entry type).length = 60 →
        (SendLFGListQueryResponse P w me type entry).map
            (fun payload => (readU32 payload 8, readU32 payload 12))
          = some (50, 60)) := by
  have hn := listMatches_length_le w _player entry type
  have hfold := listQuery_fold P w _player entry type w.players
    (u32le type ++ u32le entry ++ u32le 0 ++ u32le 0) 0 (by omega)
  have hmain : SendLFGListQueryResponse P w me type entry
      = some (u32le type ++ u32le entry
          ++ u32le (min (listMatches w _player entry type).length 50)
          ++ u32le (listMatches w _player entry type).length
          ++ ((listMatches w _player entry type).take 50).flatMap
              (listRecord P w entry type)) := by
    have hrec : appendRecord P w entry type [] = listRecord P w entry type :=
      funext (appendRecord_nil P w entry type)
    rw [hrec] at hfold
    simp only [SendLFGListQueryResponse, hme]
    have h0 : min 0 50 = 0 := rfl
    rw [h0] at hfold
    rw [hfold]
    simp only [Nat.zero_add, Nat.sub_zero]
    rw [putU32_header]
    rfl
  have hread : (SendLFGListQueryResponse P w me type entry).map
        (fun payload => (readU32 payload 8, readU32 payload 12))
      = some (min (listMatches w _player entry type).length 50,
          (listMatches w _player entry type).length) := by
    rw [hmain, Option.map_some']
    have h8 := readU32_u32le (u32le type ++ u32le entry)
      (min (listMatches w _player entry type).length 50)
      (u32le (listMatches w _player entry type).length
        ++ ((listMatches w _player entry type).take 50).flatMap
            (listRecord P w entry type))
    have h12 := readU32_u32le (u32le type ++ u32le entry
        ++ u32le (min (listMatches w _player entry type).length 50))
      (listMatches w _player entry type).length
      (((listMatches w _player entry type).take 50).flatMap (listRecord P w entry type))
    have l8 : (u32le type ++ u32le entry).length = 8 := rfl
    have l12 : (u32le type ++ u32le entry
        ++ u32le (min (listMatches w _player entry type).length 50)).length = 12 := rfl
    rw [l8, ← List.append_assoc] at h8
    rw [l12] at h12
    rw [h8, h12]
    congr 2
    · apply Nat.mod_eq_of_lt; omega
    · apply Nat.mod_eq_of_lt; omega
  refine ⟨hmain, hread, ?_⟩
  intro h60
  rw [hread, h60]
  rfl

/-- C14 applied to two registries queried for type 1 and entry 5.  A leader with "more"
slot (5, 1), its follower, a null entry and a seeker without group: the payload lists
the leader with the follower as only other member and then the seeker with its three
slots; the follower is not listed.  Sixty seekers: the header reads `displayed = 50` and
`found = 60`. -/
theorem sendLFGListQueryResponse_counts_witness :
    SendLFGListQueryResponse exPacketEnv exListWorld 0 1 5
        = some [1, 0, 0, 0, 5, 0, 0, 0, 2, 0, 0, 0, 2, 0, 0, 0,
            1, 1, 70, 0, 0, 0, 12, 0, 0, 0, 1,
            5, 0, 0, 1, 0, 0, 0, 1, 0, 0, 0, 1,
            104, 105, 0,
            1, 0, 0, 0, 1, 2, 5, 0, 0, 0,
            1, 4, 5, 0, 0, 0, 0, 0, 0, 0, 0,
            5, 0, 0, 1, 0, 0, 0, 0, 0, 0, 0, 0,
            0,
            0, 0, 0, 0]
    ∧ (SendLFGListQueryResponse exPacketEnv exCrowd 0 1 5).map
          (fun payload => (readU32 payload 8, readU32 payload 12))
        = some (50, 60) :=
  ⟨(sendLFGListQueryResponse_counts exPacketEnv exListWorld 0 1 5 exLeader rfl
      (by decide)).1.trans exListWorld_records,
   (sendLFGListQueryResponse_counts exPacketEnv exCrowd 0 1 5 exListedSeeker rfl
      (by decide)).2.2 (by decide)⟩

/-- C15: a set-slot request whose slot index is at least `MAX_LOOKING_FOR_GROUP_SLOT`
gives back the state it found, so no slot, "more" slot, comment or flag of any player
has changed and no outcome of the group store was consumed, and it sends nothing. -/
theorem handleSetLfgOpcode_bad_slot (E : Env) (P : PacketEnv) (me slot temp : Nat) (w : World)
    (h : slot ≥ P.MAX_LOOKING_FOR_GROUP_SLOT) :
    HandleSetLfgOpcode E P me slot temp w = (w, [])
    ∧ (∀ i, (HandleSetLfgOpcode E P me slot temp w).1.player i = w.player i) := by
  have hmain : HandleSetLfgOpcode E P me slot temp w = (w, []) := by
    simp only [HandleSetLfgOpcode, h, if_true]
  exact ⟨hmain, fun i => by rw [hmain]⟩

/-- The seeker of the examples with auto-join on sends slot index 3 (C15 applied):
nothing changes although a matching advertiser is online. -/
theorem handleSetLfgOpcode_bad_slot_witness :
    HandleSetLfgOpcode exEnv exPacketEnv 0 3 0x01000005 exJoinWorld = (exJoinWorld, []) :=
  (handleSetLfgOpcode_bad_slot exEnv exPacketEnv 0 3 0x01000005 exJoinWorld (by decide)).1

/-! ## The slot word: encode, decode and the set-slot handlers -/

theorem and_ffff (w : Nat) : w &&& 0xFFFF = w % 65536 := by
  have h := Nat.and_pow_two_sub_one_eq_mod w 16
  simpa using h

theorem slotWord_eq_add (entry type : Nat) (he : entry < 65536) :
    entry ||| (type <<< 24) = 16777216 * type + entry := by
  have h := Nat.mul_add_lt_is_or (i := 24) (b := entry) (by norm_num; omega) type
  rw [Nat.shiftLeft_eq, Nat.lor_comm, Nat.mul_comm]
  simpa using h.symm

theorem decode_encode (entry type : Nat) (he : entry < 65536) (ht : type < 256) :
    decodeSlotWord (encodeSlotWord entry type) = (entry, type) := by
  simp only [decodeSlotWord, encodeSlotWord, and_ffff, Nat.shiftRight_eq_div_pow,
    slotWord_eq_add entry type he]
  refine Prod.ext ?_ ?_ <;> dsimp only <;> omega

theorem decode_bounds (w : Nat) (hw : w < 4294967296) :
    (decodeSlotWord w).1 < 65536 ∧ (decodeSlotWord w).2 < 256 := by
  simp only [decodeSlotWord, and_ffff, Nat.shiftRight_eq_div_pow]
  constructor <;> omega

theorem sameLfg_refl (w : World) : SameLfg w w := fun _ => rfl

theorem sameLfg_trans {a b c : World} (h1 : SameLfg a b) (h2 : SameLfg b c) : SameLfg a c :=
  fun i => (h2 i).trans (h1 i)

theorem sameLfg_of_players {w w2 : World} (h : w2.players = w.players) : SameLfg w w2 := by
  intro i
  simp only [World.player, h]

theorem sameLfg_updatePlayer (w : World) (i : Nat) (f : Player → Player)
    (hf : ∀ p, (f p).m_lookingForGroup = p.m_lookingForGroup) :
    SameLfg w (w.updatePlayer i f) := by
  intro j
  by_cases hij : i = j
  · subst hij
    rw [player_updatePlayer_self]
    cases w.player i with
    | none => rfl
    | some p => simp only [Option.map_some', hf]
  · rw [player_updatePlayer_ne w f hij]

theorem sameLfg_restrictedLeave (E : Env) (w : World) (i : Nat) :
    SameLfg w (w.restrictedLeave E i) := by
  apply sameLfg_updatePlayer
  intro p
  split_ifs <;> rfl

theorem sameLfg_createGroup (E : Env) (w : World) (i : Nat) :
    SameLfg w (w.CreateGroup E i).1 := by
  simp only [World.CreateGroup]
  split
  · exact sameLfg_of_players rfl
  · split_ifs
    · refine sameLfg_trans (sameLfg_of_players rfl) (sameLfg_updatePlayer _ _ _ ?_)
      intro p
      split_ifs <;> rfl
    · exact sameLfg_of_players rfl

theorem sameLfg_addMember (w : World) (gi m : Nat) :
    SameLfg w (w.AddMember gi m).1 := by
  simp only [World.AddMember]
  split_ifs
  · refine sameLfg_trans (sameLfg_of_players rfl) (sameLfg_updatePlayer _ _ _ ?_)
    intro p
    rfl
  · exact sameLfg_of_players rfl

theorem joinLoop_sameLfg (E : Env) (me : Nat) :
    ∀ (l : List Nat) (w : World), SameLfg w (joinLoop E me l w) := by
  intro l
  induction l with
  | nil => intro w; exact sameLfg_refl w
  | cons i rest ih =>
    intro w
    rw [joinLoop]
    split
    · rename_i plr _player hplr hme
      split_ifs
      all_goals first | exact ih w | skip
      dsimp only
      have hcr : SameLfg w (if plr.group.isNone then w.CreateGroup E i else (w, true)).1 := by
        split_ifs
        · exact sameLfg_createGroup E w i
        · exact sameLfg_refl w
      generalize (if plr.group.isNone then w.CreateGroup E i else (w, true)) = created at hcr
      split_ifs
      · exact ih w
      · exact ih w
      · exact sameLfg_trans hcr (ih _)
      · split
        · exact hcr
        · rename_i gi _
          split_ifs
          · exact sameLfg_trans hcr
              (sameLfg_trans (sameLfg_addMember _ gi me) (sameLfg_restrictedLeave E _ me))
          · exact sameLfg_trans hcr
              (sameLfg_trans (sameLfg_addMember _ gi me)
                (sameLfg_trans (sameLfg_restrictedLeave E _ i) (ih _)))
    · exact ih w

theorem addMoreLoop_sameLfg (E : Env) (me : Nat) (g : Option Nat) :
    ∀ (l : List Nat) (w : World), SameLfg w (addMoreLoop E me g l w) := by
  intro l
  induction l with
  | nil => intro w; exact sameLfg_refl w
  | cons i rest ih =>
    intro w
    rw [addMoreLoop]
    split
    · rename_i plr _player hplr hme
      have hcr : SameLfg w (if g.isNone then w.CreateGroup E me else (w, true)).1 := by
        split_ifs
        · exact sameLfg_createGroup E w me
        · exact sameLfg_refl w
      generalize (if g.isNone then w.CreateGroup E me else (w, true)) = created at hcr
      split_ifs
      all_goals first | exact ih w | skip
      dsimp only
      split_ifs
      · exact hcr
      · split
        · exact hcr
        · rename_i gi _
          split_ifs
          · exact sameLfg_trans hcr
              (sameLfg_trans (sameLfg_addMember _ gi i) (sameLfg_restrictedLeave E _ me))
          · exact sameLfg_trans hcr
              (sameLfg_trans (sameLfg_addMember _ gi i)
                (sameLfg_trans (sameLfg_restrictedLeave E _ i)
                  (sameLfg_restrictedLeave E _ me)))
          · exact sameLfg_trans hcr
              (sameLfg_trans (sameLfg_addMember _ gi i)
                (sameLfg_trans (sameLfg_restrictedLeave E _ i) (ih _)))
    · exact ih w

theorem attemptJoin_sameLfg (E : Env) (me : Nat) (w : World) :
    SameLfg w (AttemptJoin E me w) := by
  unfold AttemptJoin
  split
  · exact sameLfg_refl w
  · split_ifs
    · exact sameLfg_refl w
    · exact joinLoop_sameLfg E me _ w

theorem attemptAddMore_sameLfg (E : Env) (me : Nat) (w : World) :
    SameLfg w (AttemptAddMore E me w) := by
  unfold AttemptAddMore
  split
  · exact sameLfg_refl w
  · dsimp only
    split_ifs
    · exact sameLfg_refl w
    · exact sameLfg_refl w
    · exact addMoreLoop_sameLfg E me _ _ w

theorem readU32_flatMap {β : Type} (f : β → Nat) :
    ∀ (l : List β) (j : Nat), j < l.length →
      readU32 (l.flatMap (fun x => u32le (f x))) (4 * j)
        = (l.map f).getD j 0 % 4294967296 := by
  intro l
  induction l with
  | nil => intro j hj; simp at hj
  | cons a t ih =>
    intro j hj
    cases j with
    | zero =>
      have h := readU32_u32le [] (f a) (t.flatMap (fun x => u32le (f x)))
      simpa using h
    | succ k =>
      have hk : k < t.length := by simpa using hj
      have hdrop : List.drop (4 * (k + 1)) (u32le (f a) ++ t.flatMap (fun x => u32le (f x)))
          = List.drop (4 * k) (t.flatMap (fun x => u32le (f x))) := by
        have h4 : 4 * (k + 1) = (u32le (f a)).length + 4 * k := by
          rw [length_u32le]; omega
        rw [h4, List.drop_append]
      have hgoal : readU32 ((a :: t).flatMap (fun x => u32le (f x))) (4 * (k + 1))
          = readU32 (t.flatMap (fun x => u32le (f x))) (4 * k) := by
        simp only [readU32, List.flatMap_cons, hdrop]
      rw [hgoal, ih k hk]
      simp

theorem setSlot_getD (P : PacketEnv) (slots : List LookingForGroupSlot) (slot entry type : Nat)
    (h : slot < P.MAX_LOOKING_FOR_GROUP_SLOT) :
    (setSlot P slots slot entry type).getD slot ({ } : LookingForGroupSlot)
      = { entry := entry, type := type } := by
  have hlen : slot < (slots ++ List.replicate (P.MAX_LOOKING_FOR_GROUP_SLOT - slots.length)
      ({ } : LookingForGroupSlot)).length := by
    simp only [List.length_append, List.length_replicate]; omega
  simp only [setSlot, List.getD_eq_getElem?_getD, List.getElem?_set_self hlen, Option.getD_some]

theorem sendLFGUpdateLFG_word (P : PacketEnv) (q : Player) (slot : Nat)
    (h : slot < P.MAX_LOOKING_FOR_GROUP_SLOT) :
    readU32 (SendLFGUpdateLFG P q) (4 * slot)
      = encodeSlotWord (q.m_lookingForGroup.slots.getD slot ({ } : LookingForGroupSlot)).entry
          (q.m_lookingForGroup.slots.getD slot ({ } : LookingForGroupSlot)).type := by
  simp only [SendLFGUpdateLFG, foldl_append_bytes, List.nil_append]
  rw [readU32_flatMap (fun i =>
    slotWord (q.m_lookingForGroup.slots.getD i ({ } : LookingForGroupSlot)))
    (List.range P.MAX_LOOKING_FOR_GROUP_SLOT) slot (by simpa using h)]
  simp only [List.getD_eq_getElem?_getD, List.getElem?_map, List.getElem?_range h,
    Option.map_some', Option.getD_some]
  rfl

theorem player_of_sameLfg {w w2 : World} (h : SameLfg w w2) (i : Nat) (p : Player)
    (hp : w.player i = some p) :
    ∃ q, w2.player i = some q ∧ q.m_lookingForGroup = p.m_lookingForGroup := by
  have hi := h i
  rw [hp] at hi
  cases hq : w2.player i with
  | none => rw [hq] at hi; cases hi
  | some q =>
    rw [hq] at hi
    exact ⟨q, rfl, by simpa using hi⟩

theorem handleSetLfgOpcode_player (E : Env) (P : PacketEnv) (me slot temp : Nat) (w : World)
    (p : Player) (hp : w.player me = some p) (h : slot < P.MAX_LOOKING_FOR_GROUP_SLOT) :
    ∃ q, (HandleSetLfgOpcode E P me slot temp w).1.player me = some q
      ∧ q.m_lookingForGroup.slots
          = setSlot P p.m_lookingForGroup.slots slot (temp &&& 0xFFFF)
              ((temp >>> 24) &&& 0xFFFF) := by
  have hnot : ¬ slot ≥ P.MAX_LOOKING_FOR_GROUP_SLOT := by omega
  have hw1 := player_updatePlayer_self w me (fun (p : Player) =>
      { p with m_lookingForGroup :=
          { p.m_lookingForGroup with
            slots := setSlot P p.m_lookingForGroup.slots slot (temp &&& 0xFFFF)
              ((temp >>> 24) &&& 0xFFFF) } })
  rw [hp, Option.map_some'] at hw1
  simp only [HandleSetLfgOpcode, hnot, if_false, hw1]
  split_ifs
  · obtain ⟨q, hq, hl⟩ := player_of_sameLfg (attemptJoin_sameLfg E me _) me _ hw1
    exact ⟨q, hq, by rw [hl]⟩
  · exact ⟨_, hw1, rfl⟩

theorem handleSetLfmOpcode_player (E : Env) (P : PacketEnv) (me temp : Nat) (w : World)
    (p : Player) (hp : w.player me = some p) :
    ∃ q, (HandleSetLfmOpcode E P me temp w).1.player me = some q
      ∧ q.m_lookingForGroup.more
          = { entry := temp &&& 0xFFFF, type := (temp >>> 24) &&& 0xFFFF } := by
  have hw1 := player_updatePlayer_self w me (fun (p : Player) =>
      { p with m_lookingForGroup :=
          { p.m_lookingForGroup with
            more := { entry := temp &&& 0xFFFF, type := (temp >>> 24) &&& 0xFFFF } } })
  rw [hp, Option.map_some'] at hw1
  simp only [HandleSetLfmOpcode, hw1]
  split_ifs
  · obtain ⟨q, hq, hl⟩ := player_of_sameLfg (attemptAddMore_sameLfg E me _) me _ hw1
    exact ⟨q, hq, by rw [hl]⟩
  · exact ⟨_, hw1, rfl⟩

/-- C21: `decode (encode (entry, type)) = (entry, type)` for `entry < 2 ^ 16` and
`type < 2 ^ 8`; every pair decoded from a 32-bit word has these bounds; after
`HandleSetLfgOpcode` with a valid slot index the stored slot is the decoded pair and
the word that `SendLFGUpdateLFG` writes for it decodes to that pair again; after
`HandleSetLfmOpcode` the same holds for the "more" slot and the word of
`SendLFGUpdateLFM`. -/
theorem slot_word_round_trip (E : Env) (P : PacketEnv) (me slot temp : Nat) (w : World)
    (p : Player) (hp : w.player me = some p) (htemp : temp < 4294967296) :
    (∀ entry type : Nat, entry < 65536 → type < 256 →
        decodeSlotWord (encodeSlotWord entry type) = (entry, type))
    ∧ (∀ v : Nat, v < 4294967296 →
        (decodeSlotWord v).1 < 65536 ∧ (decodeSlotWord v).2 < 256)
    ∧ (slot < P.MAX_LOOKING_FOR_GROUP_SLOT →
        ∃ q, (HandleSetLfgOpcode E P me slot temp w).1.player me = some q
          ∧ ((q.m_lookingForGroup.slots.getD slot ({ } : LookingForGroupSlot)).entry,
              (q.m_lookingForGroup.slots.getD slot ({ } : LookingForGroupSlot)).type)
              = decodeSlotWord temp
          ∧ readU32 (SendLFGUpdateLFG P q) (4 * slot)
              = encodeSlotWord
                  (q.m_lookingForGroup.slots.getD slot ({ } : LookingForGroupSlot)).entry
                  (q.m_lookingForGroup.slots.getD slot ({ } : LookingForGroupSlot)).type
          ∧ decodeSlotWord (readU32 (SendLFGUpdateLFG P q) (4 * slot))
              = ((q.m_lookingForGroup.slots.getD slot ({ } : LookingForGroupSlot)).entry,
                  (q.m_lookingForGroup.slots.getD slot ({ } : LookingForGroupSlot)).type))
    ∧ (∃ q, (HandleSetLfmOpcode E P me temp w).1.player me = some q
          ∧ (q.m_lookingForGroup.more.entry, q.m_lookingForGroup.more.type)
              = decodeSlotWord temp
          ∧ decodeSlotWord
                (encodeSlotWord q.m_lookingForGroup.more.entry q.m_lookingForGroup.more.type)
              = (q.m_lookingForGroup.more.entry, q.m_lookingForGroup.more.type)
          ∧ (q.m_lookingForGroup.more.Empty = false →
              readU32 (SendLFGUpdateLFM q) 1
                = encodeSlotWord q.m_lookingForGroup.more.entry
                    q.m_lookingForGroup.more.type)) := by
  have hb := decode_bounds temp htemp
  refine ⟨decode_encode, decode_bounds, ?_, ?_⟩
  · intro hslot
    obtain ⟨q, hq, hs⟩ := handleSetLfgOpcode_player E P me slot temp w p hp hslot
    have hget := setSlot_getD P p.m_lookingForGroup.slots slot (temp &&& 0xFFFF)
      ((temp >>> 24) &&& 0xFFFF) hslot
    rw [← hs] at hget
    have hword := sendLFGUpdateLFG_word P q slot hslot
    refine ⟨q, hq, ?_, hword, ?_⟩
    · rw [hget]; rfl
    · rw [hword, hget]
      exact decode_encode _ _ hb.1 hb.2
  · obtain ⟨q, hq, hs⟩ := handleSetLfmOpcode_player E P me temp w p hp
    refine ⟨q, hq, ?_, ?_, ?_⟩
    · rw [hs]; rfl
    · rw [hs]
      exact decode_encode _ _ hb.1 hb.2
    · intro hne
      simp only [SendLFGUpdateLFM, hne, Bool.false_eq_true, if_false]
      exact readU32_u32le [1] _ []

/-- The seeker of the examples sets slot 1 to the word `0x01000005` (C21 applied): the
stored slot is (5, 1) and the update message carries a word that decodes to (5, 1). -/
theorem slot_word_round_trip_witness :
    ∃ q, (HandleSetLfgOpcode exEnv exPacketEnv 0 1 0x01000005 exJoinWorld).1.player 0 = some q
      ∧ ((q.m_lookingForGroup.slots.getD 1 ({ } : LookingForGroupSlot)).entry,
          (q.m_lookingForGroup.slots.getD 1 ({ } : LookingForGroupSlot)).type)
          = decodeSlotWord 0x01000005
      ∧ readU32 (SendLFGUpdateLFG exPacketEnv q) (4 * 1)
          = encodeSlotWord
              (q.m_lookingForGroup.slots.getD 1 ({ } : LookingForGroupSlot)).entry
              (q.m_lookingForGroup.slots.getD 1 ({ } : LookingForGroupSlot)).type
      ∧ decodeSlotWord (readU32 (SendLFGUpdateLFG exPacketEnv q) (4 * 1))
          = ((q.m_lookingForGroup.slots.getD 1 ({ } : LookingForGroupSlot)).entry,
              (q.m_lookingForGroup.slots.getD 1 ({ } : LookingForGroupSlot)).type) :=
  (slot_word_round_trip exEnv exPacketEnv 0 1 0x01000005 exJoinWorld exJoinSeeker rfl
    (by decide)).2.2.1 (by decide)

end LFG
